import Mathlib

/-! # WhatsApp form collector: intake, store, export and notifier

A shallow embedding of `server.js` (the Express handlers, the SQLite table
they use and the two notification functions), of `validateForm` and the
pre-fill effect of `client/src/components/ContactForm.js` and of
`filterSubmissions`, `handleExportCSV` and `generateUrl` of
`client/src/components/AdminPanel.js`, followed by the properties proved
about them.

Conventions of the embedding:

* a JavaScript string is a Lean `String`; a field of a request body is
  `undefined`, `null`, a string, a boolean, a number, or an array or object,
  the last two kinds given by what the handlers observe of them;
* a nullable TEXT column is an `Option String`, `none` being SQL NULL;
* rowids are natural numbers, the 64-bit limit of SQLite is explicit, and
  `lastID`, a JavaScript number, is the rowid rounded to a double;
* the outbound provider calls are recorded in a trace, and an outcome
  function says for each call whether it resolves or throws;
* the pieces of the JavaScript runtime the server calls but does not define
  (the time zone of the process, `Date` parsing, `toLocaleString`) are the
  fields of `JsRuntime`.
-/

namespace FormCollector

/-! ## JavaScript values and strings -/

/-- A text that is not empty, given by its first character and the rest. -/
structure NonEmptyText where
  head : Char
  tail : String
deriving DecidableEq, Repr

/-- The text of a `NonEmptyText`. -/
def NonEmptyText.text (t : NonEmptyText) : String := String.mk (t.head :: t.tail.data)

/-- A field of a JSON request body as the handlers see it, after
`express.json`. The handlers test a field for truthiness, convert it to a
string in a template literal and bind it to a statement parameter. A number
is given by whether it is zero, by its string conversion and by the text
SQLite stores for it in a TEXT column (`0`, `1.5`, `4294967296.0`); an array
or object by its string conversion and by the text the driver binds for it
(`[object Object]`). -/
inductive JVal where
  | undefined
  | null
  | str (s : String)
  | bool (b : Bool)
  | num (zero : Bool) (text : String) (stored : NonEmptyText)
  | obj (text : String) (stored : NonEmptyText)
deriving DecidableEq, Repr

/-- JavaScript truthiness: `undefined`, `null`, `''`, `false` and the number
zero are falsy, every other value is truthy. -/
def JVal.truthy : JVal → Bool
  | .undefined => false
  | .null => false
  | .str s => decide (s ≠ "")
  | .bool b => b
  | .num zero _ _ => !zero
  | .obj _ _ => true

/-- String conversion of a value inside a template literal. -/
def JVal.toStr : JVal → String
  | .undefined => "undefined"
  | .null => "null"
  | .str s => s
  | .bool b => if b then "true" else "false"
  | .num _ text _ => text
  | .obj text _ => text

/-- The number `0` of a JSON body. -/
def JVal.zero : JVal := .num true "0" { head := '0', tail := "" }

/-- A falsy value: missing (`undefined` or `null`), the empty string, `false`
or a number that is zero. -/
def JVal.falsy (v : JVal) : Prop :=
  v = .undefined ∨ v = .null ∨ v = .str "" ∨ v = .bool false ∨
    ∃ text stored, v = .num true text stored

/-- The expression `v || d` for a string default `d`. -/
def JVal.orElse (v : JVal) (d : String) : JVal :=
  if v.truthy then v else .str d

/-- A field that is missing (`undefined` or `null`) or the empty string. -/
def JVal.missingOrEmpty (v : JVal) : Prop :=
  v = .undefined ∨ v = .null ∨ v = .str ""

instance (v : JVal) : Decidable v.missingOrEmpty := by
  unfold JVal.missingOrEmpty; infer_instance

/-- The characters matched by `\s` and removed by `trim`: the ECMAScript
WhiteSpace and LineTerminator code points. -/
def jsIsSpace (c : Char) : Bool :=
  let n := c.toNat
  n == 0x09 || n == 0x0A || n == 0x0B || n == 0x0C || n == 0x0D || n == 0x20 ||
  n == 0xA0 || n == 0x1680 || (0x2000 ≤ n && n ≤ 0x200A) || n == 0x2028 ||
  n == 0x2029 || n == 0x202F || n == 0x205F || n == 0x3000 || n == 0xFEFF

/-- The method `String.prototype.trim`. -/
def jsTrim (s : String) : String :=
  String.mk ((s.data.dropWhile jsIsSpace).reverse.dropWhile jsIsSpace).reverse

/-- The expression `s.replace(/\s/g, '')`. -/
def removeSpaces (s : String) : String :=
  String.mk (s.data.filter (fun c => !jsIsSpace c))

/-! ## Validation patterns of the contact form (`ContactForm.js`) -/

/-- The character class `[1-9]`. -/
def isDigit19 (c : Char) : Bool := decide ('1' ≤ c ∧ c ≤ '9')

/-- The character class `\d`. -/
def isDigit09 (c : Char) : Bool := decide ('0' ≤ c ∧ c ≤ '9')

/-- The test `/^[+]?[1-9][\d]{0,15}$/` on a list of characters. -/
def phoneRegexChars : List Char → Bool
  | '+' :: d :: rest => isDigit19 d && decide (rest.length ≤ 15) && rest.all isDigit09
  | d :: rest => isDigit19 d && decide (rest.length ≤ 15) && rest.all isDigit09
  | [] => false

/-- The phone test of `validateForm`:
`/^[+]?[1-9][\d]{0,15}$/.test(phone.replace(/\s/g, ''))`. -/
def phonePattern (phone : String) : Bool :=
  phoneRegexChars (removeSpaces phone).data

/-- The class `[^\s@]`. -/
def isEmailChar (c : Char) : Bool := !jsIsSpace c && c != '@'

/-- The test `[^\s@]+\.[^\s@]+` anchored at both ends: some dot has a
non-empty run of class characters before it and after it. -/
def domainRegexChars (cs : List Char) : Bool :=
  cs.all isEmailChar &&
  (List.range cs.length).any (fun i => decide (0 < i ∧ i + 1 < cs.length) && cs.get? i == some '.')

/-- The test `/^[^\s@]+@[^\s@]+\.[^\s@]+$/` on a list of characters. -/
def emailRegexChars (cs : List Char) : Bool :=
  let localPart := cs.takeWhile isEmailChar
  match cs.dropWhile isEmailChar with
  | '@' :: dom => decide (localPart ≠ []) && domainRegexChars dom
  | _ => false

/-- The email test of `validateForm`. -/
def emailPattern (email : String) : Bool := emailRegexChars email.data

/-! ## Calendar arithmetic

`CURRENT_TIMESTAMP` (SQLite) and `Date.prototype.toISOString` both print the
proleptic Gregorian UTC fields of an instant. -/

/-- Civil date `(year, month, day)` of a day count since 1970-01-01. -/
def civilFromDays (days : Nat) : Nat × Nat × Nat :=
  let z := days + 719468
  let era := z / 146097
  let doe := z % 146097
  let yoe := (doe - doe / 1460 + doe / 36524 - doe / 146096) / 365
  let y := yoe + era * 400
  let doy := doe - (365 * yoe + yoe / 4 - yoe / 100)
  let mp := (5 * doy + 2) / 153
  let d := doy - (153 * mp + 2) / 5 + 1
  let m := if mp < 10 then mp + 3 else mp - 9
  (if m ≤ 2 then y + 1 else y, m, d)

/-- One decimal digit. -/
def digitChar (n : Nat) : Char := Char.ofNat (48 + n % 10)

/-- Two decimal digits, zero padded. -/
def pad2 (n : Nat) : String := String.mk [digitChar (n / 10), digitChar n]

/-- Three decimal digits, zero padded. -/
def pad3 (n : Nat) : String := String.mk [digitChar (n / 100), digitChar (n / 10), digitChar n]

/-- Four decimal digits, zero padded. -/
def pad4 (n : Nat) : String :=
  String.mk [digitChar (n / 1000), digitChar (n / 100), digitChar (n / 10), digitChar n]

/-- The text SQLite stores for `CURRENT_TIMESTAMP` at `t` seconds after the
epoch: `YYYY-MM-DD HH:MM:SS` in UTC. -/
def currentTimestamp (t : Nat) : String :=
  let (y, m, d) := civilFromDays (t / 86400)
  let s := t % 86400
  pad4 y ++ "-" ++ pad2 m ++ "-" ++ pad2 d ++ " " ++
    pad2 (s / 3600) ++ ":" ++ pad2 (s / 60 % 60) ++ ":" ++ pad2 (s % 60)

/-- The method `Date.prototype.toISOString` for the instant `ms` milliseconds
after the epoch (years 1970 to 9999): `YYYY-MM-DDTHH:mm:ss.sssZ`. -/
def toISOString (ms : Nat) : String :=
  let t := ms / 1000
  let (y, m, d) := civilFromDays (t / 86400)
  let s := t % 86400
  pad4 y ++ "-" ++ pad2 m ++ "-" ++ pad2 d ++ "T" ++
    pad2 (s / 3600) ++ ":" ++ pad2 (s / 60 % 60) ++ ":" ++ pad2 (s % 60) ++
    "." ++ pad3 (ms % 1000) ++ "Z"

/-! ## The submission store (`createTable` and the statements run on it) -/

/-- A row of `form_submissions`. -/
structure Row where
  id : Nat
  name : Option String
  email : Option String
  phone : Option String
  company : Option String
  message : Option String
  created_at : Option String
deriving DecidableEq, Repr

/-- The table together with its `sqlite_sequence` entry, which AUTOINCREMENT
keeps at the largest rowid ever assigned. -/
structure Store where
  rows : List Row
  seq : Nat
deriving DecidableEq, Repr

/-- The table right after `CREATE TABLE IF NOT EXISTS`. -/
def Store.empty : Store := { rows := [], seq := 0 }

/-- Binding of a statement parameter to a TEXT column: `undefined` and `null`
are stored as NULL, a string as it is, a boolean as the text of the integer 1
or 0, a number and an array or object as their stored text. -/
def bindParam : JVal → Option String
  | .undefined => none
  | .null => none
  | .str s => some s
  | .bool b => some (if b then "1" else "0")
  | .num _ _ stored => some stored.text
  | .obj _ stored => some stored.text

/-- Largest rowid present in the table, `0` when it is empty. -/
def maxRowid (rows : List Row) : Nat := rows.foldr (fun r m => max r.id m) 0

/-- The largest rowid SQLite can assign. -/
def maxInt64 : Nat := 2 ^ 63 - 1

/-- The statement `INSERT INTO form_submissions (name, email, phone, company,
message) VALUES (?, ?, ?, ?, ?)` run at `now` seconds after the epoch. `fault`
says that the storage layer fails. On success the new table and the rowid of
the new row. -/
def insertSubmission (fault : Bool) (now : Nat) (st : Store)
    (name email phone company message : JVal) : Except String (Store × Nat) :=
  if fault then .error "SQLITE_IOERR"
  else if (bindParam name).isNone then .error "SQLITE_CONSTRAINT: NOT NULL constraint failed"
  else
    let last := max st.seq (maxRowid st.rows)
    if maxInt64 ≤ last then .error "SQLITE_FULL"
    else
      let row : Row :=
        { id := last + 1
          name := bindParam name
          email := bindParam email
          phone := bindParam phone
          company := bindParam company
          message := bindParam message
          created_at := some (currentTimestamp now) }
      .ok ({ rows := st.rows ++ [row], seq := last + 1 }, last + 1)

/-! ## The JavaScript runtime and `toISTString` -/

/-- What the server takes from its JavaScript runtime. Instants are
milliseconds after the epoch. -/
structure JsRuntime where
  /-- The value of `new Date()`. -/
  clock : Int
  /-- The method `getTimezoneOffset` of the date with the given time value, in minutes. -/
  getTimezoneOffset : Int → Int
  /-- The time value of `new Date(text)`. -/
  parseDate : String → Int
  /-- The call `toLocaleString('en-IN', { hour12: false })` on the date with
  the given time value. -/
  toLocaleString : Int → String

/-- The argument of `toISTString`: a date string or a `Date` object. -/
inductive DateArg where
  | text (s : String)
  | date (timeValue : Int)
deriving DecidableEq, Repr

/-- The helper `toISTString(dateStringOrDate)`. -/
def toISTString (rt : JsRuntime) (dateStringOrDate : DateArg) : String :=
  let date : Int :=
    match dateStringOrDate with
    | .text s => rt.parseDate s
    | .date t => t
  let istOffset : Int := 330
  let utc := date + rt.getTimezoneOffset date * 60000
  let istTime := utc + istOffset * 60000
  rt.toLocaleString istTime

/-! ## The notifier (`sendWhatsAppMessage`, `sendAutoAcknowledgement`) -/

/-- The variables of `process.env` the notifier reads; `none` is an unset
variable. -/
structure ProcessEnv where
  TWILIO_ACCOUNT_SID : Option String
  TWILIO_AUTH_TOKEN : Option String
  TWILIO_PHONE_NUMBER : Option String
  WHATSAPP_RECIPIENT_NUMBER : Option String
  WHATSAPP_BUSINESS_TOKEN : Option String
  WHATSAPP_PHONE_NUMBER_ID : Option String
  WHATSAPP_RECIPIENT_PHONE : Option String
deriving DecidableEq, Repr

/-- Truthiness of an environment variable: set and not empty. -/
def envTruthy : Option String → Bool
  | some s => decide (s ≠ "")
  | none => false

/-- An environment variable as a JavaScript value. -/
def envVal : Option String → JVal
  | some s => .str s
  | none => .undefined

/-- The two providers: A is Twilio, B is the WhatsApp Business API. -/
inductive Provider where
  | twilio
  | business
deriving DecidableEq, Repr

/-- Which function made an outbound call. -/
inductive Purpose where
  | summary
  | acknowledgement
deriving DecidableEq, Repr

/-- One outbound provider call: `client.messages.create` or `axios.post`. -/
structure Attempt where
  provider : Provider
  purpose : Purpose
  body : String
  sender : JVal
  recipient : JVal
deriving DecidableEq, Repr

/-- The object `formData` handed to `sendWhatsAppMessage`. -/
structure FormData where
  name : JVal
  email : JVal
  phone : JVal
  company : JVal
  message : JVal
  submissionId : Nat
deriving DecidableEq, Repr

/-- The summary text built by the template literal of `sendWhatsAppMessage`. -/
def summaryText (rt : JsRuntime) (formData : FormData) : String :=
  jsTrim ("\n🆕 New Form Submission\n\n👤 Name: " ++ formData.name.toStr ++
    "\n📧 Email: " ++ (formData.email.orElse "Not provided").toStr ++
    "\n📱 Phone: " ++ formData.phone.toStr ++
    "\n🏢 Company: " ++ (formData.company.orElse "Not provided").toStr ++
    "\n💬 Message: " ++ (formData.message.orElse "No message").toStr ++
    "\n\n🆔 Submission ID: " ++ toString formData.submissionId ++
    "\n⏰ Submitted: " ++ toISTString rt (.date rt.clock) ++ "\n  ")

/-- The fixed text of `sendAutoAcknowledgement`. -/
def acknowledgementMessage : String :=
  "Thanks for your submission! We\x27ll get back to you shortly."

/-- The guard `process.env.TWILIO_ACCOUNT_SID && process.env.TWILIO_AUTH_TOKEN`. -/
def twilioGuard (env : ProcessEnv) : Bool :=
  envTruthy env.TWILIO_ACCOUNT_SID && envTruthy env.TWILIO_AUTH_TOKEN

/-- The guard `process.env.WHATSAPP_BUSINESS_TOKEN &&
process.env.WHATSAPP_PHONE_NUMBER_ID`. -/
def businessGuard (env : ProcessEnv) : Bool :=
  envTruthy env.WHATSAPP_BUSINESS_TOKEN && envTruthy env.WHATSAPP_PHONE_NUMBER_ID

/-- An awaited provider call: it is appended to the trace, and `net k` says
whether the call number `k` resolves or throws. -/
def callProvider (net : Nat → Except String Unit) (tr : List Attempt) (a : Attempt) :
    Except String Unit × List Attempt :=
  (net tr.length, tr ++ [a])

/-- The Business API block of `sendAutoAcknowledgement` and the fall-through
after it. -/
def ackViaBusiness (env : ProcessEnv) (net : Nat → Except String Unit) (tr : List Attempt)
    (userPhone : JVal) : Except String Bool × List Attempt :=
  if businessGuard env then
    match callProvider net tr
        { provider := .business, purpose := .acknowledgement, body := acknowledgementMessage
          sender := .undefined, recipient := userPhone } with
    | (.ok _, tr1) => (.ok true, tr1)
    | (.error _, tr1) => (.ok false, tr1)
  else (.ok false, tr)

/-- The function `sendAutoAcknowledgement(userPhone)`, started with the trace
`tr`: what it returns (or throws) and the trace afterwards. -/
def sendAutoAcknowledgement (env : ProcessEnv) (net : Nat → Except String Unit)
    (tr : List Attempt) (userPhone : JVal) : Except String Bool × List Attempt :=
  if twilioGuard env then
    match callProvider net tr
        { provider := .twilio, purpose := .acknowledgement, body := acknowledgementMessage
          sender := envVal env.TWILIO_PHONE_NUMBER
          recipient := .str ("whatsapp:" ++ userPhone.toStr) } with
    | (.ok _, tr1) => (.ok true, tr1)
    | (.error _, tr1) => ackViaBusiness env net tr1 userPhone
  else ackViaBusiness env net tr userPhone

/-- The Business API block of `sendWhatsAppMessage` and the fall-through after
it. The acknowledgement is awaited inside the `try`, so an error thrown by it
would be caught there. -/
def summaryViaBusiness (env : ProcessEnv) (net : Nat → Except String Unit) (tr : List Attempt)
    (message : String) (formData : FormData) : Except String Bool × List Attempt :=
  if businessGuard env then
    match callProvider net tr
        { provider := .business, purpose := .summary, body := message
          sender := .undefined, recipient := envVal env.WHATSAPP_RECIPIENT_PHONE } with
    | (.ok _, tr1) =>
      match sendAutoAcknowledgement env net tr1 formData.phone with
      | (.ok _, tr2) => (.ok true, tr2)
      | (.error _, tr2) => (.ok false, tr2)
    | (.error _, tr1) => (.ok false, tr1)
  else (.ok false, tr)

/-- The function `sendWhatsAppMessage(formData)`: what it returns (or throws)
and the outbound calls it made, in order. -/
def sendWhatsAppMessage (env : ProcessEnv) (rt : JsRuntime) (net : Nat → Except String Unit)
    (formData : FormData) : Except String Bool × List Attempt :=
  let message := summaryText rt formData
  if twilioGuard env then
    match callProvider net []
        { provider := .twilio, purpose := .summary, body := message
          sender := envVal env.TWILIO_PHONE_NUMBER
          recipient := envVal env.WHATSAPP_RECIPIENT_NUMBER } with
    | (.ok _, tr1) =>
      match sendAutoAcknowledgement env net tr1 formData.phone with
      | (.ok _, tr2) => (.ok true, tr2)
      | (.error _, tr2) => summaryViaBusiness env net tr2 message formData
    | (.error _, tr1) => summaryViaBusiness env net tr1 message formData
  else summaryViaBusiness env net [] message formData

/-- The guard under which the notifier calls a provider. -/
def providerGuard (env : ProcessEnv) : Provider → Bool
  | .twilio => twilioGuard env
  | .business => businessGuard env

/-- Provider A has no credential configured: account id, auth token and
sender number are all unset or empty. -/
def twilioAbsent (env : ProcessEnv) : Prop :=
  envTruthy env.TWILIO_ACCOUNT_SID = false ∧ envTruthy env.TWILIO_AUTH_TOKEN = false ∧
  envTruthy env.TWILIO_PHONE_NUMBER = false

/-- Provider B has its credentials configured: API token and phone-number-id. -/
def businessPresent (env : ProcessEnv) : Prop :=
  envTruthy env.WHATSAPP_BUSINESS_TOKEN = true ∧ envTruthy env.WHATSAPP_PHONE_NUMBER_ID = true

/-- Provider B has no credential configured. -/
def businessAbsent (env : ProcessEnv) : Prop :=
  envTruthy env.WHATSAPP_BUSINESS_TOKEN = false ∧ envTruthy env.WHATSAPP_PHONE_NUMBER_ID = false

/-- The summary call `sendWhatsAppMessage` makes through the Business API. -/
def businessSummary (env : ProcessEnv) (rt : JsRuntime) (formData : FormData) : Attempt :=
  { provider := .business, purpose := .summary, body := summaryText rt formData
    sender := .undefined, recipient := envVal env.WHATSAPP_RECIPIENT_PHONE }

/-! ## The intake handler (`POST /api/submit-form`) -/

/-- The body of a submit request after destructuring. -/
structure SubmitBody where
  name : JVal
  email : JVal
  phone : JVal
  company : JVal
  message : JVal
deriving DecidableEq, Repr

/-- The JSON answer of the submit handler with its HTTP status. -/
structure SubmitResponse where
  status : Nat
  success : Bool
  message : String
  submissionId : Option Nat
deriving DecidableEq, Repr

/-- What one run of the submit handler leaves behind. -/
structure SubmitOutcome where
  response : SubmitResponse
  store : Store
  /-- The outbound provider calls started by this request. -/
  attempts : List Attempt
  /-- Whether `sendWhatsAppMessage` was called at all. -/
  notified : Bool
deriving DecidableEq, Repr

/-- The spacing of the doubles around the natural number `n`, found in at
most `fuel` doublings from `u`: 1 below `2 ^ 53`, 2 below `2 ^ 54`, and so on. -/
def ulpAux : Nat → Nat → Nat → Nat
  | 0, _, u => u
  | fuel + 1, n, u => if n < 2 ^ 53 * u then u else ulpAux fuel n (2 * u)

/-- The spacing of the doubles around a rowid; rowids are below `2 ^ 63`, for
which 11 doublings are enough. -/
def ulp (n : Nat) : Nat := ulpAux 11 n 1

/-- The JavaScript number for the rowid `n`: the nearest double, ties to the
even mantissa. It is `n` itself up to `2 ^ 53`. -/
def toDouble (n : Nat) : Nat :=
  if 2 * (n % ulp n) > ulp n ∨ (2 * (n % ulp n) = ulp n ∧ n / ulp n % 2 = 1) then
    (n / ulp n + 1) * ulp n
  else n / ulp n * ulp n

/-- The handler of `POST /api/submit-form`. The driver hands the rowid of the
new row to the callback as the JavaScript number `this.lastID`. -/
def submitForm (env : ProcessEnv) (rt : JsRuntime) (net : Nat → Except String Unit)
    (fault : Bool) (now : Nat) (st : Store) (body : SubmitBody) : SubmitOutcome :=
  if !body.name.truthy || !body.phone.truthy then
    { response :=
        { status := 400, success := false, message := "Name and phone number are required"
          submissionId := none }
      store := st, attempts := [], notified := false }
  else
    match insertSubmission fault now st body.name body.email body.phone body.company
        body.message with
    | .error _ =>
      { response :=
          { status := 500, success := false, message := "Error saving form data"
            submissionId := none }
        store := st, attempts := [], notified := false }
    | .ok (st1, rowid) =>
      let lastID := toDouble rowid
      let sent := sendWhatsAppMessage env rt net
        { name := body.name, email := body.email, phone := body.phone
          company := body.company, message := body.message, submissionId := lastID }
      { response :=
          { status := 200, success := true, message := "Form submitted successfully!"
            submissionId := some lastID }
        store := st1, attempts := sent.2, notified := true }

/-! ## The query and export handlers (`GET /api/submissions`, `GET /api/export-csv`) -/

/-- Lexicographic `≤` on character lists, by code point. -/
def charsLe : List Char → List Char → Bool
  | [], _ => true
  | _ :: _, [] => false
  | a :: as, b :: bs => if a < b then true else if b < a then false else charsLe as bs

/-- Order of two TEXT values in SQLite under the BINARY collation: `memcmp`
of the UTF-8 bytes, the shorter text first on a tie, which is the
lexicographic order of the code points. -/
def textLe (a b : String) : Bool := charsLe a.data b.data

/-- Order of two `created_at` values in SQLite: NULL sorts below every text,
two texts compare with `textLe`. -/
def sqlLe : Option String → Option String → Bool
  | none, _ => true
  | some _, none => false
  | some a, some b => textLe a b

/-- The relation that `ORDER BY created_at DESC` puts between a row and every
later row of the result. -/
def createdAtDesc (a b : Row) : Prop := sqlLe b.created_at a.created_at = true

instance : DecidableRel createdAtDesc := fun a b =>
  inferInstanceAs (Decidable (sqlLe b.created_at a.created_at = true))

/-- The clause `ORDER BY created_at DESC`, as a stable sort of the rows in
table order. SQL leaves the order of rows with equal keys open. -/
def orderByCreatedAtDesc (rows : List Row) : List Row :=
  rows.insertionSort createdAtDesc

/-- The predicate `created_at BETWEEN ? AND ?` with two text parameters that
are not numeric literals: a NULL `created_at` is not selected, a text one is
compared with both bounds as a string. -/
def createdAtBetween (startDate endDate : String) (r : Row) : Bool :=
  match r.created_at with
  | none => false
  | some c => textLe startDate c && textLe c endDate

/-- The statement `SELECT * FROM form_submissions ORDER BY created_at DESC`. -/
def selectAllDesc (st : Store) : List Row := orderByCreatedAtDesc st.rows

/-- Truthiness of a query-string parameter: present and not empty. -/
def queryTruthy : Option String → Bool
  | some s => decide (s ≠ "")
  | none => false

/-- The statement the export handler builds from `req.query`. An absent
parameter is `none`. -/
def exportSelect (startDate endDate : Option String) (st : Store) : List Row :=
  if queryTruthy startDate && queryTruthy endDate then
    orderByCreatedAtDesc
      (st.rows.filter (createdAtBetween (startDate.getD "") (endDate.getD "")))
  else
    orderByCreatedAtDesc st.rows

/-- The answer of `GET /api/submissions`. -/
structure ListResponse where
  status : Nat
  success : Bool
  message : Option String
  data : Option (List Row)
deriving DecidableEq, Repr

/-- The handler of `GET /api/submissions`; `fault` says that `db.all` fails. -/
def getSubmissions (fault : Bool) (st : Store) : ListResponse :=
  if fault then
    { status := 500, success := false, message := some "Error fetching submissions"
      data := none }
  else
    { status := 200, success := true, message := none, data := some (selectAllDesc st) }

/-- The constant `csvHeader`. -/
def csvHeader : String := "Name,Email,Phone,Company,Message,Created At\n"

/-- The expression `x || \x27\x27` for a column value. -/
def orEmpty : Option String → String
  | some s => s
  | none => ""

/-- Truthiness of a column value: not NULL and not the empty text. -/
def colTruthy : Option String → Bool
  | some s => decide (s ≠ "")
  | none => false

/-- The constant `istDateString` of the export handler: the rendered date of
a row, empty when `created_at` is missing. -/
def istDateString (rt : JsRuntime) (row : Row) : String :=
  if colTruthy row.created_at then toISTString rt (.text (orEmpty row.created_at)) else ""

/-- The text one row is mapped to in the export handler. -/
def csvLine (rt : JsRuntime) (row : Row) : String :=
  let phone := if colTruthy row.phone then "\x27" ++ orEmpty row.phone else ""
  let excelDate := if istDateString rt row ≠ "" then "\x27" ++ istDateString rt row else ""
  "\"" ++ orEmpty row.name ++ "\",\"" ++ orEmpty row.email ++ "\",\"" ++ phone ++ "\",\"" ++
    orEmpty row.company ++ "\",\"" ++ orEmpty row.message ++ "\",\"" ++ excelDate ++ "\""

/-- The method `Array.prototype.join` on strings. -/
def jsJoin (sep : String) : List String → String
  | [] => ""
  | [x] => x
  | x :: y :: rest => x ++ sep ++ jsJoin sep (y :: rest)

/-- The value of `csvData` for the rows the query returned. -/
def csvData (rt : JsRuntime) (rows : List Row) : String :=
  csvHeader ++ jsJoin "\n" (rows.map (csvLine rt))

/-- The answer of `GET /api/export-csv`. -/
inductive ExportResponse where
  | failure (status : Nat) (message : String)
  | csv (payload : String)
deriving DecidableEq, Repr

/-- The handler of `GET /api/export-csv`; `fault` says that `db.all` fails. -/
def exportCsv (rt : JsRuntime) (fault : Bool) (startDate endDate : Option String)
    (st : Store) : ExportResponse :=
  if fault then .failure 500 "Error fetching data for export"
  else .csv (csvData rt (exportSelect startDate endDate st))

/-- A field wrapped in double quotes. -/
def quoted (s : String) : String := "\"" ++ s ++ "\""

/-- A field with the single-quote marker in front, unless it is empty. -/
def marked (s : String) : String := if s = "" then "" else "\x27" ++ s

/-- A CSV record as the specification describes it: six double-quoted fields
joined by commas, the phone and the date carrying the marker. -/
def csvRecord (name email phone company message date : String) : String :=
  ",".intercalate ([name, email, marked phone, company, message, marked date].map quoted)

/-- The row of the specification example, with any id and creation time. -/
def janeRow (id : Nat) (created : Option String) : Row :=
  { id := id, name := some "Jane Doe", email := none, phone := some "+15551234567"
    company := none, message := some "Hi", created_at := created }

/-- The method `String.prototype.split` with a one-character separator. -/
def jsSplit (sep : Char) (s : String) : List String :=
  (s.data.splitOn sep).map String.mk

/-! ## Sample values used to instantiate the theorems -/

/-- A configuration with no provider credentials. -/
def noProviders : ProcessEnv :=
  { TWILIO_ACCOUNT_SID := none, TWILIO_AUTH_TOKEN := none, TWILIO_PHONE_NUMBER := none
    WHATSAPP_RECIPIENT_NUMBER := none, WHATSAPP_BUSINESS_TOKEN := none
    WHATSAPP_PHONE_NUMBER_ID := none, WHATSAPP_RECIPIENT_PHONE := none }

/-- A configuration with the Business API credentials only. -/
def businessOnly : ProcessEnv :=
  { noProviders with
    WHATSAPP_BUSINESS_TOKEN := some "token", WHATSAPP_PHONE_NUMBER_ID := some "1001"
    WHATSAPP_RECIPIENT_PHONE := some "15550001111" }

/-- A configuration with the Twilio account id and auth token but no sender
number. -/
def twilioNoSender : ProcessEnv :=
  { noProviders with
    TWILIO_ACCOUNT_SID := some "AC0001", TWILIO_AUTH_TOKEN := some "secret"
    WHATSAPP_RECIPIENT_NUMBER := some "whatsapp:+15550001111" }

/-- The form data of a stored submission. -/
def sampleForm : FormData :=
  { name := .str "A", email := .undefined, phone := .str "12345", company := .undefined
    message := .undefined, submissionId := 1 }

/-- A runtime in the UTC zone whose date functions are placeholders. -/
def plainRuntime : JsRuntime :=
  { clock := 0, getTimezoneOffset := fun _ => 0, parseDate := fun _ => 0
    toLocaleString := fun _ => "1/1/1970, 05:30:00" }

/-- Every provider call resolves. -/
def netOk : Nat → Except String Unit := fun _ => .ok ()

/-- Every provider call throws. -/
def netDown : Nat → Except String Unit := fun _ => .error "ECONNREFUSED"

/-- The validation rules as the specification words them: the name is not
empty after trimming, the phone is present and has the phone shape, the email
is absent (or empty) or has the email shape. The shapes are the patterns of
the contact form. -/
def specValid (body : SubmitBody) : Bool :=
  (match body.name with
    | .str n => decide (jsTrim n ≠ "")
    | _ => false) &&
  (match body.phone with
    | .str p => phonePattern p
    | _ => false) &&
  (match body.email with
    | .str e => decide (e = "") || emailPattern e
    | _ => true)

/-- A submission with the required fields only, made at noon UTC of
2024-01-15 (1705320000 seconds after the epoch) on the empty table. -/
def noonBody : SubmitBody :=
  { name := .str "A", email := .undefined, phone := .str "12345", company := .undefined
    message := .undefined }

/-- The store after `noonBody` was submitted at 2024-01-15 12:00:00 UTC. -/
def noonStore : Store :=
  (submitForm noProviders plainRuntime netOk false 1705320000 Store.empty noonBody).store

/-- A submission whose message has two lines, as a text area sends it. -/
def twoLineBody : SubmitBody :=
  { name := .str "A", email := .undefined, phone := .str "12345", company := .undefined
    message := .str "line one\nline two" }

/-- The store after `twoLineBody` was submitted on the empty table. -/
def twoLineStore : Store :=
  (submitForm noProviders plainRuntime netOk false 1705320000 Store.empty twoLineBody).store

/-! ## Observations on a notifier run and on request sequences -/

/-- Whether the provider call number `k` resolves. -/
def netOkAt (net : Nat → Except String Unit) (k : Nat) : Bool :=
  match net k with
  | .ok _ => true
  | .error _ => false

/-- The summary call `sendWhatsAppMessage` makes through Twilio. -/
def twilioSummary (env : ProcessEnv) (rt : JsRuntime) (formData : FormData) : Attempt :=
  { provider := .twilio, purpose := .summary, body := summaryText rt formData
    sender := envVal env.TWILIO_PHONE_NUMBER
    recipient := envVal env.WHATSAPP_RECIPIENT_NUMBER }

/-- Some summary call of the trace resolved: a provider delivered the summary. -/
def summaryDelivered (net : Nat → Except String Unit) (tr : List Attempt) : Prop :=
  ∃ k a, tr.get? k = some a ∧ a.purpose = .summary ∧ netOkAt net k = true

/-- The providers of the summary calls of a trace, in order. -/
def summaryProviders (tr : List Attempt) : List Provider :=
  (tr.filter (fun a => decide (a.purpose = .summary))).map (fun a => a.provider)

/-- What one run of `sendWhatsAppMessage` looks like: it returns `b` without
throwing, after the summary calls `pre` followed by the acknowledgement calls
`acks`. -/
def ChainShape (env : ProcessEnv) (rt : JsRuntime) (net : Nat → Except String Unit)
    (formData : FormData) (pre acks : List Attempt) (b : Bool) : Prop :=
  sendWhatsAppMessage env rt net formData = (.ok b, pre ++ acks) ∧
  (pre = [] ∨ pre = [twilioSummary env rt formData] ∨ pre = [businessSummary env rt formData] ∨
    pre = [twilioSummary env rt formData, businessSummary env rt formData]) ∧
  (∀ a ∈ acks, a.purpose = .acknowledgement ∧ a.body = acknowledgementMessage ∧
    (a.recipient = formData.phone ∨
      a.recipient = .str ("whatsapp:" ++ formData.phone.toStr))) ∧
  (∀ k, k + 1 < pre.length → netOkAt net k = false) ∧
  (b = true → pre ≠ [] ∧ netOkAt net (pre.length - 1) = true ∧
    pre ++ acks = (sendAutoAcknowledgement env net pre formData.phone).2) ∧
  (b = false → acks = [] ∧ ∀ k, k < pre.length → netOkAt net k = false) ∧
  (twilioGuard env = true → pre.head? = some (twilioSummary env rt formData)) ∧
  (businessSummary env rt formData ∈ pre → twilioGuard env = false ∨ netOkAt net 0 = false)

/-- A request to one of the three API routes, with what the environment
contributes to its handling. -/
inductive Request where
  | submit (env : ProcessEnv) (rt : JsRuntime) (net : Nat → Except String Unit) (fault : Bool)
      (now : Nat) (body : SubmitBody)
  | list (fault : Bool)
  | exportCsv (rt : JsRuntime) (fault : Bool) (startDate endDate : Option String)

/-- The store after a request was handled. The list and export handlers run
a SELECT only, which writes nothing. -/
def handle (st : Store) : Request → Store
  | .submit env rt net fault now body => (submitForm env rt net fault now st body).store
  | .list _ => st
  | .exportCsv _ _ _ _ => st

/-- The store after a sequence of requests. -/
def run (st : Store) (reqs : List Request) : Store := reqs.foldl handle st

/-- A persisted value that is present and not empty. -/
def nonEmptyText (v : Option String) : Prop := ∃ s, v = some s ∧ s ≠ ""

/-- The store invariant: rowids are pairwise distinct and every row has a
non-empty name and a non-empty phone. -/
def StoreInv (st : Store) : Prop :=
  (st.rows.map (fun r => r.id)).Nodup ∧
  ∀ r ∈ st.rows, nonEmptyText r.name ∧ nonEmptyText r.phone

/-- The one answer the submit handler gives to a submission it rejects. -/
def rejection : SubmitResponse :=
  { status := 400, success := false, message := "Name and phone number are required"
    submissionId := none }

/-! ## A runtime in a time zone of fixed offset

The server takes the zone of its process from the runtime. For a zone whose
offset never changes, ECMAScript fixes what the three date functions do:
`getTimezoneOffset` is the constant `off` (minutes, positive west of
Greenwich), the local time of the instant `t` is `t - off * 60000`,
`toLocaleString` prints the fields of that local time, and a date string
without a zone designator, such as `2024-01-15 12:00:00`, is read as local
time. -/

/-- Days from 1970-01-01 to the civil date `y`-`m`-`d`. -/
def daysFromCivil (y m d : Nat) : Int :=
  let y1 : Int := if m ≤ 2 then (y : Int) - 1 else y
  let era := y1 / 400
  let yoe := y1 - era * 400
  let mp : Int := if 2 < m then (m : Int) - 3 else (m : Int) + 9
  let doy := (153 * mp + 2) / 5 + d - 1
  let doe := yoe * 365 + yoe / 4 - yoe / 100 + doy
  era * 146097 + doe - 719468

/-- The decimal digit at position `i` of a text, `0` when there is none. -/
def digitAt (cs : List Char) (i : Nat) : Nat := (cs.getD i '0').toNat - 48

/-- The fields of a text `YYYY-MM-DD HH:MM:SS`, read as a UTC time, in
milliseconds after the epoch. -/
def utcMillisOfText (s : String) : Int :=
  let cs := s.data
  let y := digitAt cs 0 * 1000 + digitAt cs 1 * 100 + digitAt cs 2 * 10 + digitAt cs 3
  let m := digitAt cs 5 * 10 + digitAt cs 6
  let d := digitAt cs 8 * 10 + digitAt cs 9
  let hh := digitAt cs 11 * 10 + digitAt cs 12
  let mm := digitAt cs 14 * 10 + digitAt cs 15
  let ss := digitAt cs 17 * 10 + digitAt cs 18
  (daysFromCivil y m d * 86400 + ((hh * 3600 + mm * 60 + ss : Nat) : Int)) * 1000

/-- The runtime of a process in a zone of fixed offset `off`, with `fmt` the
locale rendering of a local time value. -/
def zoneRuntime (off : Int) (fmt : Int → String) (clock : Int) : JsRuntime :=
  { clock := clock
    getTimezoneOffset := fun _ => off
    parseDate := fun s => utcMillisOfText s + off * 60000
    toLocaleString := fun t => fmt (t - off * 60000) }

/-- A number below 100 in decimal, without padding. -/
def unpadded2 (n : Nat) : String := if n < 10 then String.mk [digitChar n] else pad2 n

/-- The `en-IN` rendering, without the 12-hour clock, of a local time value
after the epoch: `d/m/yyyy, HH:MM:SS`. Engines differ on whether the hour
after midnight is printed `00` or `24`; it is `00` here, and the times
evaluated below are away from midnight. -/
def enIN (wall : Int) : String :=
  let t := wall.toNat / 1000
  let (y, m, d) := civilFromDays (t / 86400)
  let s := t % 86400
  unpadded2 d ++ "/" ++ unpadded2 m ++ "/" ++ pad4 y ++ ", " ++
    pad2 (s / 3600) ++ ":" ++ pad2 (s / 60 % 60) ++ ":" ++ pad2 (s % 60)

/-! ## Validation in the contact form (`validateForm` of `ContactForm.js`) -/

/-- The state `formData` of the contact form. -/
structure FormState where
  name : String
  email : String
  phone : String
  company : String
  message : String
deriving DecidableEq, Repr

/-- The object `newErrors`: `none` is an absent key. -/
structure FormErrors where
  name : Option String
  phone : Option String
  email : Option String
deriving DecidableEq, Repr

/-- The value of `Object.keys(newErrors)`: the keys in insertion order. -/
def FormErrors.keys (e : FormErrors) : List String :=
  (if e.name.isSome then ["name"] else []) ++ (if e.phone.isSome then ["phone"] else []) ++
    (if e.email.isSome then ["email"] else [])

/-- The function `validateForm`: the errors it sets and the boolean it returns. -/
def validateForm (formData : FormState) : FormErrors × Bool :=
  let nameError : Option String :=
    if jsTrim formData.name = "" then some "Name is required" else none
  let phoneError : Option String :=
    if jsTrim formData.phone = "" then some "Phone number is required"
    else if !phonePattern formData.phone then some "Please enter a valid phone number"
    else none
  let emailError : Option String :=
    if formData.email ≠ "" ∧ !emailPattern formData.email then
      some "Please enter a valid email address"
    else none
  let newErrors : FormErrors := { name := nameError, phone := phoneError, email := emailError }
  (newErrors, decide (newErrors.keys.length = 0))

/-- The phone shape as the specification words it: an optional leading `+`
followed by 1 to 16 decimal digits. -/
def specPhoneShape (cs : List Char) : Bool :=
  let digits := match cs with
    | '+' :: rest => rest
    | rest => rest
  decide (1 ≤ digits.length ∧ digits.length ≤ 16) && digits.all isDigit09

/-- The phone shape the pattern of the form accepts: an optional leading `+`,
a digit from 1 to 9, then at most 15 decimal digits. -/
def leadingNonZeroShape (cs : List Char) : Prop :=
  ∃ (sign : List Char) (d : Char) (rest : List Char),
    cs = sign ++ d :: rest ∧ (sign = [] ∨ sign = ['+']) ∧ ('1' ≤ d ∧ d ≤ '9') ∧
    rest.length ≤ 15 ∧ ∀ c ∈ rest, '0' ≤ c ∧ c ≤ '9'

/-- A form state with the three validated fields given and the rest empty. -/
def formWith (name phone email : String) : FormState :=
  { name := name, email := email, phone := phone, company := "", message := "" }

/-! ## The admin panel (`filterSubmissions` and `handleExportCSV` of `AdminPanel.js`) -/

/-- The method `String.prototype.includes` on character lists. -/
def includesChars (text term : List Char) : Bool :=
  text.tails.any (fun t => term.isPrefixOf t)

/-- The test `text?.toLowerCase().includes(searchTerm.toLowerCase())` on a
column value, false for NULL; `lower` is `String.prototype.toLowerCase`. -/
def columnIncludes (lower : String → String) (text : Option String) (searchTerm : String) :
    Bool :=
  match text with
  | some t => includesChars (lower t).data (lower searchTerm).data
  | none => false

/-- The predicate of the search filter of `filterSubmissions`. The phone is
searched without lowering. The name is never NULL in the table. -/
def matchesSearch (lower : String → String) (searchTerm : String) (submission : Row) : Bool :=
  columnIncludes lower submission.name searchTerm ||
  columnIncludes lower submission.email searchTerm ||
  (match submission.phone with
    | some t => includesChars t.data searchTerm.data
    | none => false) ||
  columnIncludes lower submission.company searchTerm ||
  columnIncludes lower submission.message searchTerm

/-- The time value of `new Date(submission.created_at)` in the browser. -/
def submissionDate (rt : JsRuntime) (submission : Row) : Int :=
  match submission.created_at with
  | some c => rt.parseDate c
  | none => 0

/-- The predicate of the date filter of `filterSubmissions`; the bounds are
the time values of the dates picked, `none` when none is picked. -/
def inPickedRange (rt : JsRuntime) (startDate endDate : Option Nat) (submission : Row) : Bool :=
  match startDate, endDate with
  | some start, some stop =>
    decide ((start : Int) ≤ submissionDate rt submission) &&
      decide (submissionDate rt submission ≤ (stop : Int))
  | some start, none => decide ((start : Int) ≤ submissionDate rt submission)
  | none, some stop => decide (submissionDate rt submission ≤ (stop : Int))
  | none, none => true

/-- The list `filterSubmissions` stores in `filteredSubmissions`, whose length
the export button shows. -/
def filterSubmissions (rt : JsRuntime) (lower : String → String) (submissions : List Row)
    (searchTerm : String) (startDate endDate : Option Nat) : List Row :=
  let filtered :=
    if searchTerm ≠ "" then submissions.filter (matchesSearch lower searchTerm) else submissions
  if startDate.isSome || endDate.isSome then
    filtered.filter (inPickedRange rt startDate endDate)
  else filtered

/-- The query `handleExportCSV` sends: each picked date as `toISOString()`. -/
def exportQuery (startDate endDate : Option Nat) : Option String × Option String :=
  (startDate.map toISOString, endDate.map toISOString)

/-- The rows the server writes to the CSV for the request of `handleExportCSV`. -/
def exportedRows (startDate endDate : Option Nat) (st : Store) : List Row :=
  exportSelect (exportQuery startDate endDate).1 (exportQuery startDate endDate).2 st

/-- The store after `noonBody` was submitted at 2024-01-15 12:00:00 UTC and
again at 2024-02-15 12:00:00 UTC. -/
def twoMonthStore : Store :=
  run Store.empty
    [.submit noProviders plainRuntime netOk false 1705320000 noonBody,
     .submit noProviders plainRuntime netOk false 1707998400 noonBody]

/-- The rendered field values of a row, in the order of the CSV columns. -/
def renderedFields (rt : JsRuntime) (row : Row) : List String :=
  [orEmpty row.name, orEmpty row.email, orEmpty row.phone, orEmpty row.company,
    orEmpty row.message, istDateString rt row]

/-- No rendered field of the row contains a double quote. -/
def quoteFree (rt : JsRuntime) (row : Row) : Prop :=
  ∀ f ∈ renderedFields rt row, '"' ∉ f.data

/-- A field without the single-quote marker it may start with. -/
def unmark (s : String) : String :=
  match s.data with
  | '\x27' :: rest => String.mk rest
  | _ => s

/-- The six field values read back from a CSV line: the line is split at the
double quotes, the fields are the pieces at the odd positions, and the marker
of the phone and of the date is dropped. -/
def recoverFields (line : String) : List String :=
  match (line.data.splitOn '"').map String.mk with
  | [_, n, _, e, _, p, _, c, _, m, _, d, _] => [n, e, unmark p, c, m, unmark d]
  | _ => []

/-- A row with the given name and email and every other column NULL. -/
def nameEmailRow (name email : Option String) : Row :=
  { id := 1, name := name, email := email, phone := none, company := none, message := none
    created_at := none }

/-! ## The pre-filled URL (`generateUrl` of `AdminPanel.js`, the pre-fill
effect of `ContactForm.js`)

`URLSearchParams` and `decodeURIComponent` belong to the browser. They are
modelled after the URL standard (the `application/x-www-form-urlencoded`
serializer and parser) and after ECMAScript (`Decode` with an empty reserved
set). Bytes are natural numbers below 256. -/

/-- The UTF-8 bytes of a character. -/
def utf8Bytes (c : Char) : List Nat :=
  let n := c.toNat
  if n < 0x80 then [n]
  else if n < 0x800 then [0xC0 + n / 64, 0x80 + n % 64]
  else if n < 0x10000 then [0xE0 + n / 4096, 0x80 + n / 64 % 64, 0x80 + n % 64]
  else [0xF0 + n / 262144, 0x80 + n / 4096 % 64, 0x80 + n / 64 % 64, 0x80 + n % 64]

/-- An upper-case hexadecimal digit. -/
def hexDigit (n : Nat) : Char := if n < 10 then Char.ofNat (48 + n) else Char.ofNat (55 + n)

/-- The value of a hexadecimal digit of either case. -/
def hexValue (c : Char) : Option Nat :=
  let n := c.toNat
  if 48 ≤ n ∧ n ≤ 57 then some (n - 48)
  else if 65 ≤ n ∧ n ≤ 70 then some (n - 55)
  else if 97 ≤ n ∧ n ≤ 102 then some (n - 87)
  else none

/-- A byte as `%XX`. -/
def percentByte (b : Nat) : List Char := ['%', hexDigit (b / 16), hexDigit (b % 16)]

/-- The characters the form serializer leaves as they are: ASCII letters and
digits and `*`, `-`, `.`, `_`. -/
def isFormSafe (c : Char) : Bool :=
  let n := c.toNat
  decide (48 ≤ n ∧ n ≤ 57) || decide (65 ≤ n ∧ n ≤ 90) || decide (97 ≤ n ∧ n ≤ 122) ||
    n == 42 || n == 45 || n == 46 || n == 95

/-- The form serializer on one character: a space becomes `+`, a safe
character stays, every other character becomes its UTF-8 bytes as `%XX`. -/
def formEncodeChar (c : Char) : List Char :=
  if c = ' ' then ['+']
  else if isFormSafe c then [c]
  else (utf8Bytes c).foldr (fun b acc => percentByte b ++ acc) []

/-- The form serializer on a name or a value. -/
def formEncode (s : String) : String :=
  String.mk (s.data.foldr (fun c acc => formEncodeChar c ++ acc) [])

/-- The method `URLSearchParams.prototype.toString` on the list of pairs. -/
def paramsToString (params : List (String × String)) : String :=
  jsJoin "&" (params.map (fun kv => formEncode kv.1 ++ "=" ++ formEncode kv.2))

/-- The entries `generateUrl` appends for the generator state, in the order
of `Object.entries(urlParams)`. -/
def generatedParams (urlParams : FormState) : List (String × String) :=
  ([("name", urlParams.name), ("email", urlParams.email), ("phone", urlParams.phone),
    ("company", urlParams.company), ("message", urlParams.message)].filter
      (fun kv => decide (jsTrim kv.2 ≠ ""))).map (fun kv => (kv.1, jsTrim kv.2))

/-- The function `generateUrl`, with `baseUrl` the origin of the admin page. -/
def generateUrl (baseUrl : String) (urlParams : FormState) : String :=
  baseUrl ++ "?" ++ paramsToString (generatedParams urlParams)

/-- The value of `window.location.search` on the page opened at the generated
URL: the query with its `?`, or the empty text when the query is empty. -/
def locationSearch (urlParams : FormState) : String :=
  if paramsToString (generatedParams urlParams) = "" then ""
  else "?" ++ paramsToString (generatedParams urlParams)

/-- Percent-decoding of the URL standard, on at most `fuel` steps: `%XX` is a
byte, a `%` that is not followed by two hexadecimal digits stays, every other
character gives its UTF-8 bytes. -/
def percentDecodeAux : Nat → List Char → List Nat
  | 0, _ => []
  | _ + 1, [] => []
  | fuel + 1, c :: tl =>
    if c = '%' then
      match tl with
      | h :: l :: rest =>
        match hexValue h, hexValue l with
        | some a, some b => (16 * a + b) :: percentDecodeAux fuel rest
        | _, _ => 37 :: percentDecodeAux fuel tl
      | _ => 37 :: percentDecodeAux fuel tl
    else utf8Bytes c ++ percentDecodeAux fuel tl

/-- Percent-decoding of a text; every step consumes a character, so its
length is fuel enough. -/
def percentDecode (cs : List Char) : List Nat := percentDecodeAux cs.length cs

/-- A continuation byte `10xxxxxx`. -/
def isContinuation (b : Nat) : Bool := decide (0x80 ≤ b ∧ b < 0xC0)

/-- The character of a well-formed UTF-8 sequence with the lead byte `b0` and
the continuation bytes given, `none` for an overlong form, a surrogate or a
value above U+10FFFF. -/
def utf8Char (b0 : Nat) (conts : List Nat) : Option Char :=
  if !conts.all isContinuation then none
  else
    match conts with
    | [b1] =>
      if 0xC2 ≤ b0 ∧ b0 < 0xE0 then some (Char.ofNat ((b0 - 0xC0) * 64 + (b1 - 0x80)))
      else none
    | [b1, b2] =>
      let n := (b0 - 0xE0) * 4096 + (b1 - 0x80) * 64 + (b2 - 0x80)
      if 0xE0 ≤ b0 ∧ b0 < 0xF0 ∧ 0x800 ≤ n ∧ ¬ (0xD800 ≤ n ∧ n < 0xE000) then
        some (Char.ofNat n)
      else none
    | [b1, b2, b3] =>
      let n := (b0 - 0xF0) * 262144 + (b1 - 0x80) * 4096 + (b2 - 0x80) * 64 + (b3 - 0x80)
      if 0xF0 ≤ b0 ∧ b0 < 0xF8 ∧ 0x10000 ≤ n ∧ n < 0x110000 then some (Char.ofNat n)
      else none
    | _ => none

/-- The number of continuation bytes a lead byte announces. -/
def continuationCount (b0 : Nat) : Nat :=
  if b0 < 0xC0 then 0 else if b0 < 0xE0 then 1 else if b0 < 0xF0 then 2 else 3

/-- UTF-8 decoding, on at most `fuel` steps, that replaces what is malformed
by U+FFFD, one byte at a time. -/
def utf8DecodeAux : Nat → List Nat → List Char
  | 0, _ => []
  | _ + 1, [] => []
  | fuel + 1, b0 :: bs =>
    if b0 < 0x80 then Char.ofNat b0 :: utf8DecodeAux fuel bs
    else
      match utf8Char b0 (bs.take (continuationCount b0)) with
      | some c => c :: utf8DecodeAux fuel (bs.drop (continuationCount b0))
      | none => Char.ofNat 0xFFFD :: utf8DecodeAux fuel bs

/-- UTF-8 decoding of a byte sequence; every step consumes a byte, so its
length is fuel enough. -/
def utf8Decode (bs : List Nat) : List Char := utf8DecodeAux bs.length bs

/-- The form parser on a name or a value: every `+` is a space, then the
text is percent-decoded and the bytes are read as UTF-8. -/
def formDecode (cs : List Char) : String :=
  String.mk (utf8Decode (percentDecode (cs.map (fun c => if c = '+' then ' ' else c))))

/-- A sequence `name=value` of a query, split at its first `=`. -/
def parsePair (cs : List Char) : String × String :=
  (formDecode (cs.takeWhile (fun c => c != '=')),
    formDecode ((cs.dropWhile (fun c => c != '=')).drop 1))

/-- The list of pairs of `new URLSearchParams(search)`: a leading `?` is
dropped, the rest is split at `&`, empty sequences are skipped. -/
def parseSearch (search : String) : List (String × String) :=
  let query :=
    match search.data with
    | '?' :: rest => rest
    | cs => cs
  ((query.splitOn '&').filter (fun cs => !cs.isEmpty)).map parsePair

/-- The method `URLSearchParams.prototype.get`: the value of the first pair
with the name, `none` for `null`. -/
def paramsGet (params : List (String × String)) (name : String) : Option String :=
  (params.find? (fun kv => decide (kv.1 = name))).map (fun kv => kv.2)

/-- A text cut into literal characters and `%XX` bytes. -/
inductive UriToken where
  | lit (c : Char)
  | byte (b : Nat)
deriving DecidableEq, Repr

/-- The escapes of a text for `decodeURIComponent`, on at most `fuel` steps:
a `%` that is not followed by two hexadecimal digits throws. -/
def uriTokensAux : Nat → List Char → Except String (List UriToken)
  | 0, _ => .ok []
  | _ + 1, [] => .ok []
  | fuel + 1, c :: tl =>
    if c = '%' then
      match tl with
      | h :: l :: rest =>
        match hexValue h, hexValue l with
        | some a, some b =>
          match uriTokensAux fuel rest with
          | .ok ts => .ok (.byte (16 * a + b) :: ts)
          | .error e => .error e
        | _, _ => .error "URIError: URI malformed"
      | _ => .error "URIError: URI malformed"
    else
      match uriTokensAux fuel tl with
      | .ok ts => .ok (.lit c :: ts)
      | .error e => .error e

/-- The bytes at the head of a token list, `none` when one of the first `n`
tokens is missing or is a literal character. -/
def leadingBytes : Nat → List UriToken → Option (List Nat)
  | 0, _ => some []
  | n + 1, .byte b :: ts => (leadingBytes n ts).map (fun bs => b :: bs)
  | _ + 1, _ => none

/-- The characters of a token list for `decodeURIComponent`, on at most `fuel`
steps: an escaped byte below 128 is its character, an escaped lead byte must
be followed by its escaped continuation bytes and form valid UTF-8, else the
function throws. -/
def uriCharsAux : Nat → List UriToken → Except String (List Char)
  | 0, _ => .ok []
  | _ + 1, [] => .ok []
  | fuel + 1, .lit c :: ts =>
    match uriCharsAux fuel ts with
    | .ok cs => .ok (c :: cs)
    | .error e => .error e
  | fuel + 1, .byte b0 :: ts =>
    if b0 < 0x80 then
      match uriCharsAux fuel ts with
      | .ok cs => .ok (Char.ofNat b0 :: cs)
      | .error e => .error e
    else
      match (leadingBytes (continuationCount b0) ts).bind (utf8Char b0) with
      | some c =>
        match uriCharsAux fuel (ts.drop (continuationCount b0)) with
        | .ok cs => .ok (c :: cs)
        | .error e => .error e
      | none => .error "URIError: URI malformed"

/-- The function `decodeURIComponent`: the decoded text, or the URIError it
throws. -/
def decodeURIComponent (s : String) : Except String String :=
  match uriTokensAux s.length s.data with
  | .error e => .error e
  | .ok ts =>
    match uriCharsAux ts.length ts with
    | .ok cs => .ok (String.mk cs)
    | .error e => .error e

/-- One step of the pre-fill loop: the value to put in the field, `none` when
the parameter is absent or empty; a throw of `decodeURIComponent` leaves the
effect. -/
def prefillField (urlParams : List (String × String)) (field : String) :
    Except String (Option String) :=
  match paramsGet urlParams field with
  | some value =>
    if value ≠ "" then
      match decodeURIComponent value with
      | .ok v => .ok (some v)
      | .error e => .error e
    else .ok none
  | none => .ok none

/-- The pre-fill effect of the contact form on a page whose
`window.location.search` is `search`: the form data afterwards (the initial
empty fields overwritten by the pre-fill data), or the error the effect
throws. -/
def prefillFromSearch (search : String) : Except String FormState :=
  let urlParams := parseSearch search
  match prefillField urlParams "name", prefillField urlParams "email",
    prefillField urlParams "phone", prefillField urlParams "company",
    prefillField urlParams "message" with
  | .ok name, .ok email, .ok phone, .ok company, .ok message =>
    .ok { name := name.getD "", email := email.getD "", phone := phone.getD ""
          company := company.getD "", message := message.getD "" }
  | .error e, _, _, _, _ => .error e
  | _, .error e, _, _, _ => .error e
  | _, _, .error e, _, _ => .error e
  | _, _, _, .error e, _ => .error e
  | _, _, _, _, .error e => .error e

/-- A generator state with a name and a message and the rest empty. -/
def generatorWith (name message : String) : FormState :=
  { name := name, email := "", phone := "", company := "", message := message }

/-- A store whose last row has the id `2 ^ 53` = 9007199254740992. -/
def hugeStore : Store :=
  { rows :=
      [{ id := 9007199254740992, name := some "Z", email := none, phone := some "1"
         company := none, message := none, created_at := some "2024-01-01 00:00:00" }]
    seq := 9007199254740992 }

/-! ## Properties of the intake handler -/

theorem truthy_false_of_missingOrEmpty {v : JVal} (h : v.missingOrEmpty) : v.truthy = false := by
  rcases h with h | h | h <;> subst h <;> rfl

theorem truthy_of_str {s : String} (h : s ≠ "") : (JVal.str s).truthy = true := by
  simp [JVal.truthy, h]

theorem phonePattern_ne_empty {p : String} (h : phonePattern p = true) : p ≠ "" := by
  rintro rfl
  exact absurd h (by decide)

theorem le_maxRowid {rows : List Row} {r : Row} (h : r ∈ rows) : r.id ≤ maxRowid rows := by
  induction rows with
  | nil => cases h
  | cons x xs ih =>
    simp only [maxRowid, List.foldr_cons]
    rcases List.mem_cons.mp h with h | h
    · subst h; exact le_max_left _ _
    · exact le_trans (ih h) (le_max_right _ _)

/-- What a successful insert returns: the table with one more row at the end,
whose rowid is one more than the largest rowid seen so far. -/
theorem insertSubmission_ok {fault : Bool} {now : Nat} {st : Store}
    {name email phone company message : JVal} {res : Store × Nat}
    (h : insertSubmission fault now st name email phone company message = .ok res) :
    res.2 = max st.seq (maxRowid st.rows) + 1 ∧
    res.1 =
      { rows := st.rows ++
          [{ id := res.2, name := bindParam name, email := bindParam email
             phone := bindParam phone, company := bindParam company
             message := bindParam message, created_at := some (currentTimestamp now) }]
        seq := res.2 } := by
  unfold insertSubmission at h
  split at h
  · cases h
  · split at h
    · cases h
    · simp only at h
      split at h
      · cases h
      · cases h
        exact ⟨rfl, rfl⟩

/-- C1: a submit request whose name or phone is missing or empty is answered
with status 400 and `success: false`, leaves the store as it was and starts no
notification, whatever the store, the configuration and the storage state. -/
theorem submit_rejects_missing_name_or_phone (env : ProcessEnv) (rt : JsRuntime)
    (net : Nat → Except String Unit) (fault : Bool) (now : Nat) (st : Store)
    (body : SubmitBody) (h : body.name.missingOrEmpty ∨ body.phone.missingOrEmpty) :
    (submitForm env rt net fault now st body).response.status = 400 ∧
    (submitForm env rt net fault now st body).response.success = false ∧
    (submitForm env rt net fault now st body).response.submissionId = none ∧
    (submitForm env rt net fault now st body).store = st ∧
    (submitForm env rt net fault now st body).notified = false ∧
    (submitForm env rt net fault now st body).attempts = [] := by
  have hg : (!body.name.truthy || !body.phone.truthy) = true := by
    rcases h with h | h
    · simp [truthy_false_of_missingOrEmpty h]
    · simp [truthy_false_of_missingOrEmpty h]
  simp [submitForm, hg]

theorem submit_rejects_missing_name_or_phone_witness :
    ((JVal.str "").missingOrEmpty ∨ (JVal.str "12345").missingOrEmpty) ∧
    (submitForm businessOnly plainRuntime netOk false 0 Store.empty
      { name := .str "", email := .undefined, phone := .str "12345", company := .undefined
        message := .undefined }).response.status = 400 :=
  ⟨by decide,
   (submit_rejects_missing_name_or_phone businessOnly plainRuntime netOk false 0 Store.empty
      { name := .str "", email := .undefined, phone := .str "12345", company := .undefined
        message := .undefined } (by decide)).1⟩

theorem ulp_of_lt {n : Nat} (h : n < 2 ^ 53) : ulp n = 1 := by
  unfold ulp ulpAux
  rw [Nat.mul_one, if_pos h]

theorem toDouble_of_le {n : Nat} (h : n ≤ 2 ^ 53) : toDouble n = n := by
  rcases Nat.lt_or_eq_of_le h with h | h
  · unfold toDouble
    rw [ulp_of_lt h]
    simp [Nat.mod_one]
  · subst h
    decide

/-- C2, as stated, fails: on a store whose last id is 9007199254740992, a
submission with a name, a valid phone and no email is stored as the row
9007199254740993 and answered with the submissionId 9007199254740992, which
is not above the id already stored. -/
theorem submit_answers_rounded_id :
    specValid noonBody = true ∧
    (submitForm noProviders plainRuntime netOk false 1705320000 hugeStore
      noonBody).response.status = 200 ∧
    (submitForm noProviders plainRuntime netOk false 1705320000 hugeStore
      noonBody).store.rows.map (fun r => r.id) = [9007199254740992, 9007199254740993] ∧
    (submitForm noProviders plainRuntime netOk false 1705320000 hugeStore
      noonBody).response.submissionId = some 9007199254740992 ∧
    hugeStore.rows.map (fun r => r.id) = [9007199254740992] := by
  decide

/-- C2, amended: on a store whose ids so far are below `2 ^ 53`, for a
submission with a non-empty name and a non-empty phone (any phone shape, any
email), a submit whose insert succeeds answers 200 and appends exactly one
row to the store, carrying the submitted name, email, phone, company and
message; the returned `submissionId` is the id of that row, is positive, and
is strictly greater than the id of every row already stored and than the
largest id assigned so far. -/
theorem submit_persists_one_row (env : ProcessEnv) (rt : JsRuntime)
    (net : Nat → Except String Unit) (fault : Bool) (now : Nat) (st : Store)
    (body : SubmitBody) (n p : String)
    (hname : body.name = .str n) (hn : n ≠ "")
    (hphone : body.phone = .str p) (hp : p ≠ "")
    (hsmall : st.seq < 2 ^ 53 ∧ ∀ r ∈ st.rows, r.id < 2 ^ 53)
    (hins : ∃ res, insertSubmission fault now st body.name body.email body.phone body.company
      body.message = .ok res) :
    ∃ id : Nat,
      (submitForm env rt net fault now st body).response.status = 200 ∧
      (submitForm env rt net fault now st body).response.success = true ∧
      (submitForm env rt net fault now st body).response.submissionId = some id ∧
      (submitForm env rt net fault now st body).store.rows =
        st.rows ++
          [{ id := id, name := some n, email := bindParam body.email, phone := some p
             company := bindParam body.company, message := bindParam body.message
             created_at := some (currentTimestamp now) }] ∧
      0 < id ∧ st.seq < id ∧ ∀ r ∈ st.rows, r.id < id := by
  obtain ⟨res, hres⟩ := hins
  obtain ⟨hid, hst⟩ := insertSubmission_ok hres
  have hg : (!body.name.truthy || !body.phone.truthy) = false := by
    rw [hname, hphone, truthy_of_str hn, truthy_of_str hp]; rfl
  have hmax : maxRowid st.rows < 2 ^ 53 := by
    have : ∀ rows : List Row, (∀ r ∈ rows, r.id < 2 ^ 53) → maxRowid rows < 2 ^ 53 := by
      intro rows
      induction rows with
      | nil => intro _; simp [maxRowid]
      | cons x xs ih =>
        intro h
        simp only [maxRowid, List.foldr_cons]
        exact max_lt (h x (List.mem_cons_self _ _))
          (ih (fun r hr => h r (List.mem_cons_of_mem _ hr)))
    exact this st.rows hsmall.2
  have hle : res.2 ≤ 2 ^ 53 := by
    rw [hid]
    exact Nat.succ_le_of_lt (max_lt hsmall.1 hmax)
  have hdouble : toDouble res.2 = res.2 := toDouble_of_le hle
  refine ⟨res.2, ?_, ?_, ?_, ?_, ?_, ?_, ?_⟩
  · simp [submitForm, hg, hres]
  · simp [submitForm, hg, hres]
  · simp [submitForm, hg, hres, hdouble]
  · simp only [submitForm, hg, hres]
    rw [hst]
    simp [hname, hphone, bindParam]
  · omega
  · rw [hid]; exact Nat.lt_succ_of_le (le_max_left _ _)
  · intro r hr
    rw [hid]
    exact Nat.lt_succ_of_le (le_trans (le_maxRowid hr) (le_max_right _ _))

theorem submit_persists_one_row_witness :
    ∃ id : Nat,
      (submitForm businessOnly plainRuntime netDown false 1705320000 noonStore
        { noonBody with email := .str "", phone := .str "0123" }).response.status = 200 ∧
      (submitForm businessOnly plainRuntime netDown false 1705320000 noonStore
        { noonBody with email := .str "", phone := .str "0123" }).response.success = true ∧
      (submitForm businessOnly plainRuntime netDown false 1705320000 noonStore
        { noonBody with email := .str "", phone := .str "0123" }).response.submissionId =
        some id ∧
      (submitForm businessOnly plainRuntime netDown false 1705320000 noonStore
        { noonBody with email := .str "", phone := .str "0123" }).store.rows =
        noonStore.rows ++
          [{ id := id, name := some "A"
             email := bindParam ({ noonBody with email := .str "", phone := .str "0123" } :
               SubmitBody).email
             phone := some "0123"
             company := bindParam ({ noonBody with email := .str "", phone := .str "0123" } :
               SubmitBody).company
             message := bindParam ({ noonBody with email := .str "", phone := .str "0123" } :
               SubmitBody).message
             created_at := some (currentTimestamp 1705320000) }] ∧
      0 < id ∧ noonStore.seq < id ∧ ∀ r ∈ noonStore.rows, r.id < id :=
  submit_persists_one_row businessOnly plainRuntime netDown false 1705320000 noonStore
    { noonBody with email := .str "", phone := .str "0123" } "A" "0123" rfl (by decide) rfl
    (by decide) (by decide) ⟨_, rfl⟩

theorem truthy_false_iff_falsy (v : JVal) : v.truthy = false ↔ v.falsy := by
  unfold JVal.falsy
  constructor
  · intro h
    cases v with
    | undefined => exact Or.inl rfl
    | null => exact Or.inr (Or.inl rfl)
    | str s =>
      have : s = "" := by simpa [JVal.truthy] using h
      subst this
      exact Or.inr (Or.inr (Or.inl rfl))
    | bool b =>
      have : b = false := by simpa [JVal.truthy] using h
      subst this
      exact Or.inr (Or.inr (Or.inr (Or.inl rfl)))
    | num zero text stored =>
      have : zero = true := by simpa [JVal.truthy] using h
      subst this
      exact Or.inr (Or.inr (Or.inr (Or.inr ⟨text, stored, rfl⟩)))
    | obj text stored => simp [JVal.truthy] at h
  · rintro (h | h | h | h | ⟨text, stored, h⟩) <;> subst h <;> rfl

/-- C3, as stated, fails: the handler accepts (answers 200 and stores a row
for) a whitespace-only name, a phone that is not of phone shape and an email
that is not of email shape, each of which the stated rules reject. -/
theorem submit_accepts_what_the_rules_reject :
    (specValid { noonBody with name := .str "  " } = false ∧
      (submitForm noProviders plainRuntime netOk false 0 Store.empty
        { noonBody with name := .str "  " }).response.status = 200 ∧
      (submitForm noProviders plainRuntime netOk false 0 Store.empty
        { noonBody with name := .str "  " }).store.rows.length = 1) ∧
    (specValid { noonBody with phone := .str "abc" } = false ∧
      (submitForm noProviders plainRuntime netOk false 0 Store.empty
        { noonBody with phone := .str "abc" }).response.status = 200 ∧
      (submitForm noProviders plainRuntime netOk false 0 Store.empty
        { noonBody with phone := .str "abc" }).store.rows.length = 1) ∧
    (specValid { noonBody with email := .str "x" } = false ∧
      (submitForm noProviders plainRuntime netOk false 0 Store.empty
        { noonBody with email := .str "x" }).response.status = 200 ∧
      (submitForm noProviders plainRuntime netOk false 0 Store.empty
        { noonBody with email := .str "x" }).store.rows.length = 1) := by
  decide

/-- C3, amended: the handler rejects a submission with a validation failure
(status 400) exactly when the name or the phone is falsy: missing, the empty
string, the boolean `false` or a number that is zero; there is no trimming
and no test of the phone or the email shape, and a rejected submission leaves
the store unchanged and starts no notification. -/
theorem submit_rejects_iff_falsy_name_or_phone (env : ProcessEnv) (rt : JsRuntime)
    (net : Nat → Except String Unit) (fault : Bool) (now : Nat) (st : Store)
    (body : SubmitBody) :
    ((submitForm env rt net fault now st body).response.status = 400 ↔
      (body.name.falsy ∨ body.phone.falsy)) ∧
    ((submitForm env rt net fault now st body).response.status = 400 →
      (submitForm env rt net fault now st body).store = st ∧
      (submitForm env rt net fault now st body).notified = false) := by
  by_cases hg : (!body.name.truthy || !body.phone.truthy) = true
  · have hm : body.name.falsy ∨ body.phone.falsy := by
      rcases Bool.or_eq_true _ _ |>.mp hg with h | h
      · exact Or.inl ((truthy_false_iff_falsy _).mp (by simpa using h))
      · exact Or.inr ((truthy_false_iff_falsy _).mp (by simpa using h))
    simp [submitForm, hg, hm]
  · have hm : ¬ (body.name.falsy ∨ body.phone.falsy) := by
      rintro (h | h)
      · exact hg (by simp [(truthy_false_iff_falsy _).mpr h])
      · exact hg (by simp [(truthy_false_iff_falsy _).mpr h])
    have hs : (submitForm env rt net fault now st body).response.status ≠ 400 := by
      simp only [submitForm, hg]
      cases insertSubmission fault now st body.name body.email body.phone body.company
        body.message with
      | error e => simp
      | ok r => simp
    exact ⟨⟨fun h => absurd h hs, fun h => absurd h hm⟩, fun h => absurd h hs⟩

theorem submit_rejects_iff_falsy_name_or_phone_witness :
    (submitForm noProviders plainRuntime netOk false 0 Store.empty
        { noonBody with name := JVal.zero, phone := .str "1" }).response.status = 400 ∧
    (submitForm noProviders plainRuntime netOk false 0 Store.empty
        { noonBody with name := JVal.zero, phone := .str "1" }).store = Store.empty ∧
    (submitForm noProviders plainRuntime netOk false 0 Store.empty
        { noonBody with name := JVal.zero, phone := .str "1" }).notified = false ∧
    (submitForm noProviders plainRuntime netOk false 0 Store.empty
        { noonBody with name := .bool false }).response.status = 400 ∧
    ¬ (submitForm noProviders plainRuntime netOk false 0 Store.empty
        { noonBody with name := .bool true,
                        phone := .obj "" { head := '[', tail := "object Object]" } }
        ).response.status = 400 :=
  ⟨(submit_rejects_iff_falsy_name_or_phone noProviders plainRuntime netOk false 0 Store.empty
      { noonBody with name := JVal.zero, phone := .str "1" }).1.mpr
      (Or.inl (Or.inr (Or.inr (Or.inr (Or.inr ⟨_, _, rfl⟩))))),
   ((submit_rejects_iff_falsy_name_or_phone noProviders plainRuntime netOk false 0 Store.empty
      { noonBody with name := JVal.zero, phone := .str "1" }).2 (by decide)).1,
   ((submit_rejects_iff_falsy_name_or_phone noProviders plainRuntime netOk false 0 Store.empty
      { noonBody with name := JVal.zero, phone := .str "1" }).2 (by decide)).2,
   by decide, by decide⟩

/-! ## Properties of the query and export handlers -/

/-- C4 at a failing input: the row stored at 2024-01-15 12:00:00 UTC lies
inside the interval from 2024-01-15T00:00:00.000Z to 2024-01-16T00:00:00.000Z,
yet the export with these two bounds selects no row, because the stored text
has a space where the bound has a `T`. -/
theorem export_between_drops_row_inside_interval :
    noonStore.rows.map (fun r => r.created_at) = [some "2024-01-15 12:00:00"] ∧
    toISOString 1705276800000 = "2024-01-15T00:00:00.000Z" ∧
    toISOString 1705363200000 = "2024-01-16T00:00:00.000Z" ∧
    (1705276800000 ≤ 1705320000 * 1000 ∧ 1705320000 * 1000 ≤ 1705363200000) ∧
    exportSelect (some (toISOString 1705276800000)) (some (toISOString 1705363200000))
      noonStore = [] := by
  decide

/-- C5 at a failing input: with only `startDate` (2024-02-01) or only
`endDate` (2024-01-01) supplied, the export still selects the row stored at
2024-01-15 12:00:00 UTC, which is before that start and after that end. -/
theorem export_single_bound_selects_everything :
    noonStore.rows.map (fun r => r.created_at) = [some "2024-01-15 12:00:00"] ∧
    toISOString 1706745600000 = "2024-02-01T00:00:00.000Z" ∧
    toISOString 1704067200000 = "2024-01-01T00:00:00.000Z" ∧
    1705320000 * 1000 < 1706745600000 ∧ 1704067200000 < 1705320000 * 1000 ∧
    exportSelect (some (toISOString 1706745600000)) none noonStore = noonStore.rows ∧
    exportSelect none (some (toISOString 1704067200000)) noonStore = noonStore.rows ∧
    noonStore.rows.length = 1 := by
  decide

theorem charsLe_total : ∀ a b : List Char, charsLe a b = true ∨ charsLe b a = true
  | [], _ => Or.inl (by simp [charsLe])
  | _ :: _, [] => Or.inr (by simp [charsLe])
  | x :: xs, y :: ys => by
    simp only [charsLe]
    rcases lt_trichotomy x y with h | h | h
    · simp [h]
    · subst h
      simpa using charsLe_total xs ys
    · simp [h]

theorem charsLe_trans : ∀ a b c : List Char,
    charsLe a b = true → charsLe b c = true → charsLe a c = true
  | [], _, _, _, _ => by simp [charsLe]
  | _ :: _, [], _, h, _ => by simp [charsLe] at h
  | _ :: _, _ :: _, [], _, h => by simp [charsLe] at h
  | x :: xs, y :: ys, z :: zs, h1, h2 => by
    simp only [charsLe] at h1 h2 ⊢
    rcases lt_trichotomy x y with hxy | hxy | hxy
    · rcases lt_trichotomy y z with hyz | hyz | hyz
      · simp [lt_trans hxy hyz]
      · subst hyz
        simp [hxy]
      · simp [hyz, lt_asymm hyz] at h2
    · subst hxy
      rcases lt_trichotomy x z with hxz | hxz | hxz
      · simp [hxz]
      · subst hxz
        simp only [lt_self_iff_false, if_false] at h1 h2 ⊢
        exact charsLe_trans xs ys zs h1 h2
      · simp [hxz, lt_asymm hxz] at h2
    · simp [hxy, lt_asymm hxy] at h1

theorem sqlLe_total (a b : Option String) : sqlLe a b = true ∨ sqlLe b a = true := by
  cases a with
  | none => exact Or.inl rfl
  | some x =>
    cases b with
    | none => exact Or.inr rfl
    | some y => exact charsLe_total x.data y.data

theorem sqlLe_trans {a b c : Option String} (h1 : sqlLe a b = true) (h2 : sqlLe b c = true) :
    sqlLe a c = true := by
  cases a with
  | none => rfl
  | some x =>
    cases b with
    | none => cases h1
    | some y =>
      cases c with
      | none => cases h2
      | some z => exact charsLe_trans x.data y.data z.data h1 h2

theorem createdAtDesc_total : IsTotal Row createdAtDesc :=
  ⟨fun a b => sqlLe_total b.created_at a.created_at⟩

theorem createdAtDesc_trans : IsTrans Row createdAtDesc :=
  ⟨fun _ _ _ h1 h2 => sqlLe_trans h2 h1⟩

theorem orderByCreatedAtDesc_sorted (rows : List Row) :
    (orderByCreatedAtDesc rows).Pairwise (fun a b => sqlLe b.created_at a.created_at = true) := by
  haveI := createdAtDesc_total
  haveI := createdAtDesc_trans
  exact List.sorted_insertionSort createdAtDesc rows

theorem orderByCreatedAtDesc_perm (rows : List Row) : (orderByCreatedAtDesc rows).Perm rows :=
  List.perm_insertionSort _ _

/-- C6: the list handler answers with every stored row exactly once (its data
is a permutation of the table), ordered so that no row has a `created_at`
above that of a row before it, and the export with both bounds absent selects
the same rows in the same order. -/
theorem list_returns_all_rows_newest_first (st : Store) :
    (getSubmissions false st).status = 200 ∧
    (getSubmissions false st).data = some (selectAllDesc st) ∧
    (selectAllDesc st).Perm st.rows ∧
    (selectAllDesc st).Pairwise (fun a b => sqlLe b.created_at a.created_at = true) ∧
    exportSelect none none st = selectAllDesc st := by
  exact ⟨rfl, rfl, orderByCreatedAtDesc_perm st.rows, orderByCreatedAtDesc_sorted st.rows, rfl⟩

theorem marked_orEmpty (v : Option String) :
    (if colTruthy v then "\x27" ++ orEmpty v else "") = marked (orEmpty v) := by
  cases v with
  | none => rfl
  | some s =>
    by_cases h : s = ""
    · subst h; rfl
    · simp [colTruthy, orEmpty, marked, h]

theorem csvLine_eq_csvRecord (rt : JsRuntime) (row : Row) :
    csvLine rt row =
      csvRecord (orEmpty row.name) (orEmpty row.email) (orEmpty row.phone) (orEmpty row.company)
        (orEmpty row.message) (istDateString rt row) := by
  have hd : (if istDateString rt row ≠ "" then "\x27" ++ istDateString rt row else "") =
      marked (istDateString rt row) := by
    by_cases h : istDateString rt row = "" <;> simp [marked, h]
  have hsep : ∀ x : String, "\",\"" ++ x = "\"" ++ ("," ++ ("\"" ++ x)) := by
    intro x
    rw [← String.append_assoc, ← String.append_assoc]
    rfl
  simp only [csvLine, csvRecord, marked_orEmpty, hd, quoted, List.map, String.intercalate,
    String.intercalate.go, String.append_assoc, hsep]

/-- C7: the line rendered for a row is six double-quoted fields joined by
commas, in the order name, email, phone, company, message, created-at, the
phone and the rendered date carrying one single-quote marker when they are
not empty; a row whose columns are all NULL or all empty renders as six empty
quoted fields; and the row Jane Doe, +15551234567, Hi, with no email and no
company, renders as in the specification whenever its rendered date is not
empty. -/
theorem csvLine_six_quoted_fields (rt : JsRuntime) (row : Row) :
    csvLine rt row =
      csvRecord (orEmpty row.name) (orEmpty row.email) (orEmpty row.phone) (orEmpty row.company)
        (orEmpty row.message) (istDateString rt row) ∧
    (∀ id : Nat,
      csvLine rt
          { id := id, name := none, email := none, phone := none, company := none
            message := none, created_at := none } = "\"\",\"\",\"\",\"\",\"\",\"\"" ∧
      csvLine rt
          { id := id, name := some "", email := some "", phone := some "", company := some ""
            message := some "", created_at := some "" } = "\"\",\"\",\"\",\"\",\"\",\"\"") ∧
    (∀ (id : Nat) (created : Option String), istDateString rt (janeRow id created) ≠ "" →
      csvLine rt (janeRow id created) =
        "\"Jane Doe\",\"\",\"\x27+15551234567\",\"\",\"Hi\",\"\x27" ++
          istDateString rt (janeRow id created) ++ "\"") := by
  refine ⟨csvLine_eq_csvRecord rt row, fun id => ⟨rfl, rfl⟩, ?_⟩
  intro id created h
  have hp : colTruthy (janeRow id created).phone = true := rfl
  simp only [csvLine, hp, h, ne_eq, not_false_eq_true, if_true]
  simp only [janeRow, orEmpty, String.append_assoc]
  rfl

theorem csvLine_six_quoted_fields_witness :
    istDateString plainRuntime (janeRow 1 (some "2024-01-15 12:00:00")) ≠ "" ∧
    csvLine plainRuntime (janeRow 1 (some "2024-01-15 12:00:00")) =
      "\"Jane Doe\",\"\",\"\x27+15551234567\",\"\",\"Hi\",\"\x27" ++
        istDateString plainRuntime (janeRow 1 (some "2024-01-15 12:00:00")) ++ "\"" :=
  ⟨by decide,
   (csvLine_six_quoted_fields plainRuntime (janeRow 1 (some "2024-01-15 12:00:00"))).2.2 1
     (some "2024-01-15 12:00:00") (by decide)⟩

theorem intercalate_cons_cons {α : Type} (sep x y : List α) (rest : List (List α)) :
    List.intercalate sep (x :: y :: rest) = x ++ (sep ++ List.intercalate sep (y :: rest)) := by
  simp [List.intercalate, List.intersperse]

theorem jsJoin_data (sep : String) : ∀ L : List String,
    (jsJoin sep L).data = List.intercalate sep.data (L.map String.data)
  | [] => rfl
  | [x] => by simp [jsJoin, List.intercalate, List.intersperse]
  | x :: y :: rest => by
    have ih := jsJoin_data sep (y :: rest)
    simp only [jsJoin, List.map, String.data_append, List.append_assoc]
    rw [intercalate_cons_cons]
    simp only [List.map] at ih
    rw [ih]

theorem csvData_data (rt : JsRuntime) (rows : List Row) (hne : rows ≠ []) :
    (csvData rt rows).data =
      List.intercalate ['\n']
        ("Name,Email,Phone,Company,Message,Created At".data :: (rows.map (csvLine rt)).map String.data) := by
  cases rows with
  | nil => exact absurd rfl hne
  | cons r rs =>
    have h := jsJoin_data "\n" ((r :: rs).map (csvLine rt))
    simp only [List.map] at h ⊢
    rw [intercalate_cons_cons, ← h]
    simp only [csvData, String.data_append, List.map]
    rfl

theorem csvData_split (rt : JsRuntime) (rows : List Row) (hne : rows ≠ [])
    (hnl : ∀ r ∈ rows, '\n' ∉ (csvLine rt r).data) :
    jsSplit '\n' (csvData rt rows) =
      "Name,Email,Phone,Company,Message,Created At" :: rows.map (csvLine rt) := by
  unfold jsSplit
  rw [csvData_data rt rows hne, List.splitOn_intercalate]
  · simp [List.map_map]
  · intro l hl
    rcases List.mem_cons.mp hl with h | h
    · subst h; decide
    · obtain ⟨s, hs, rfl⟩ := List.mem_map.mp h
      obtain ⟨r, hr, rfl⟩ := List.mem_map.mp hs
      exact hnl r hr
  · simp

/-- C8, as stated, fails: the export of the single stored row whose message
is `line one`, newline, `line two` splits at newlines into three lines, not
into one header line and one row line. -/
theorem csv_payload_splits_into_more_lines :
    twoLineStore.rows.length = 1 ∧
    (exportSelect none none twoLineStore).length = 1 ∧
    (jsSplit '\n' (csvData plainRuntime (exportSelect none none twoLineStore))).length = 3 ∧
    (jsSplit '\n' (csvData plainRuntime (exportSelect none none twoLineStore))).get? 1 ≠
      ((exportSelect none none twoLineStore).get? 0).map (csvLine plainRuntime) := by
  decide

/-- C8, amended: the payload is the header line followed by the renderings of
the rows in query order, joined by newlines; for one or more rows none of
whose renderings contains a newline character, splitting the payload at
newlines yields exactly the header and then one line per row, line `i + 1`
being the rendering of row `i`. -/
theorem csv_payload_lines (rt : JsRuntime) (rows : List Row) (hne : rows ≠ [])
    (hnl : ∀ r ∈ rows, '\n' ∉ (csvLine rt r).data) :
    csvData rt rows =
      "Name,Email,Phone,Company,Message,Created At\n" ++ jsJoin "\n" (rows.map (csvLine rt)) ∧
    jsSplit '\n' (csvData rt rows) =
      "Name,Email,Phone,Company,Message,Created At" :: rows.map (csvLine rt) ∧
    (jsSplit '\n' (csvData rt rows)).length = 1 + rows.length ∧
    ∀ i : Nat, i < rows.length →
      (jsSplit '\n' (csvData rt rows)).get? (i + 1) = (rows.get? i).map (csvLine rt) := by
  have h := csvData_split rt rows hne hnl
  refine ⟨rfl, h, ?_, ?_⟩
  · rw [h]; simp [Nat.add_comm]
  · intro i _
    rw [h]
    simp [List.getElem?_map]

theorem csv_payload_lines_witness :
    csvData plainRuntime noonStore.rows =
      "Name,Email,Phone,Company,Message,Created At\n" ++
        jsJoin "\n" (noonStore.rows.map (csvLine plainRuntime)) ∧
    jsSplit '\n' (csvData plainRuntime noonStore.rows) =
      "Name,Email,Phone,Company,Message,Created At" :: noonStore.rows.map (csvLine plainRuntime) ∧
    (jsSplit '\n' (csvData plainRuntime noonStore.rows)).length = 1 + noonStore.rows.length ∧
    ∀ i : Nat, i < noonStore.rows.length →
      (jsSplit '\n' (csvData plainRuntime noonStore.rows)).get? (i + 1) =
        (noonStore.rows.get? i).map (csvLine plainRuntime) :=
  csv_payload_lines plainRuntime noonStore.rows (by decide) (by decide)

/-! ## Properties of the notifier -/

theorem ackViaBusiness_trace (env : ProcessEnv) (net : Nat → Except String Unit)
    (tr : List Attempt) (userPhone : JVal) :
    ∃ new, (ackViaBusiness env net tr userPhone).2 = tr ++ new ∧
      ∀ a ∈ new, a.provider = .business ∧ a.purpose = .acknowledgement ∧
        businessGuard env = true := by
  unfold ackViaBusiness
  by_cases hb : businessGuard env = true
  · simp only [hb, if_true, callProvider]
    cases net tr.length with
    | error e => exact ⟨[_], rfl, by simp⟩
    | ok u => exact ⟨[_], rfl, by simp⟩
  · simp only [hb]
    exact ⟨[], by simp, by simp⟩

theorem sendAutoAcknowledgement_trace (env : ProcessEnv) (net : Nat → Except String Unit)
    (tr : List Attempt) (userPhone : JVal) :
    ∃ new, (sendAutoAcknowledgement env net tr userPhone).2 = tr ++ new ∧
      ∀ a ∈ new, a.purpose = .acknowledgement ∧ providerGuard env a.provider = true := by
  unfold sendAutoAcknowledgement
  by_cases ha : twilioGuard env = true
  · simp only [ha, if_true, callProvider]
    cases net tr.length with
    | error e =>
      obtain ⟨new, h1, h2⟩ := ackViaBusiness_trace env net
        (tr ++ [{ provider := .twilio, purpose := .acknowledgement, body := acknowledgementMessage
                  sender := envVal env.TWILIO_PHONE_NUMBER
                  recipient := .str ("whatsapp:" ++ userPhone.toStr) }]) userPhone
      refine ⟨_ :: new, by simpa using h1, ?_⟩
      intro a hmem
      rcases List.mem_cons.mp hmem with h | h
      · subst h; exact ⟨rfl, ha⟩
      · obtain ⟨hp, hq, hg⟩ := h2 a h
        exact ⟨hq, by rw [hp]; exact hg⟩
    | ok u =>
      refine ⟨[_], rfl, ?_⟩
      intro a hmem
      rw [List.mem_singleton.mp hmem]
      exact ⟨rfl, ha⟩
  · simp only [ha]
    obtain ⟨new, h1, h2⟩ := ackViaBusiness_trace env net tr userPhone
    refine ⟨new, h1, ?_⟩
    intro a h
    obtain ⟨hp, hq, hg⟩ := h2 a h
    exact ⟨hq, by rw [hp]; exact hg⟩

theorem summaryViaBusiness_trace (env : ProcessEnv) (net : Nat → Except String Unit)
    (tr : List Attempt) (message : String) (formData : FormData) :
    ∃ new, (summaryViaBusiness env net tr message formData).2 = tr ++ new ∧
      (∀ a ∈ new, providerGuard env a.provider = true) ∧
      (businessGuard env = true →
        ∃ rest, new =
          { provider := .business, purpose := .summary, body := message, sender := .undefined
            recipient := envVal env.WHATSAPP_RECIPIENT_PHONE } :: rest ∧
          ∀ a ∈ rest, a.purpose = .acknowledgement) ∧
      (businessGuard env = false → new = []) := by
  by_cases hb : businessGuard env = true
  · cases hnet : net tr.length with
    | error e =>
      simp only [summaryViaBusiness, hb, if_true, callProvider, hnet]
      refine ⟨[_], rfl, ?_, fun _ => ⟨[], rfl, by simp⟩, by simp⟩
      intro a hmem
      rw [List.mem_singleton.mp hmem]
      exact hb
    | ok u =>
      simp only [summaryViaBusiness, hb, if_true, callProvider, hnet]
      obtain ⟨new, h1, h2⟩ := sendAutoAcknowledgement_trace env net
        (tr ++ [{ provider := .business, purpose := .summary, body := message
                  sender := .undefined, recipient := envVal env.WHATSAPP_RECIPIENT_PHONE }])
        formData.phone
      refine ⟨_ :: new, ?_, ?_, fun _ => ⟨new, rfl, fun a ha => (h2 a ha).1⟩, by simp⟩
      · split
        · rename_i heq
          rw [heq] at h1
          simpa using h1
        · rename_i heq
          rw [heq] at h1
          simpa using h1
      · intro a hmem
        rcases List.mem_cons.mp hmem with h | h
        · subst h; exact hb
        · exact (h2 a h).2
  · have hb2 : businessGuard env = false := by simpa using hb
    simp only [summaryViaBusiness, hb2]
    exact ⟨[], by simp, by simp, by simp, fun _ => rfl⟩

theorem summaryViaBusiness_ok (env : ProcessEnv) (net : Nat → Except String Unit)
    (tr : List Attempt) (message : String) (formData : FormData) :
    ∃ b, (summaryViaBusiness env net tr message formData).1 = .ok b := by
  by_cases hb : businessGuard env = true
  · cases hnet : net tr.length with
    | error e =>
      simp only [summaryViaBusiness, hb, if_true, callProvider, hnet]
      exact ⟨_, rfl⟩
    | ok u =>
      simp only [summaryViaBusiness, hb, if_true, callProvider, hnet]
      split <;> exact ⟨_, rfl⟩
  · have hb2 : businessGuard env = false := by simpa using hb
    simp only [summaryViaBusiness, hb2]
    exact ⟨_, rfl⟩

theorem sendWhatsAppMessage_of_no_twilio (env : ProcessEnv) (rt : JsRuntime)
    (net : Nat → Except String Unit) (formData : FormData) (h : twilioGuard env = false) :
    sendWhatsAppMessage env rt net formData =
      summaryViaBusiness env net [] (summaryText rt formData) formData := by
  simp [sendWhatsAppMessage, h]

theorem summaryViaBusiness_of_no_business (env : ProcessEnv) (net : Nat → Except String Unit)
    (tr : List Attempt) (message : String) (formData : FormData)
    (h : businessGuard env = false) :
    summaryViaBusiness env net tr message formData = (.ok false, tr) := by
  simp [summaryViaBusiness, h]

theorem provider_eq_business_of_guard {env : ProcessEnv} {p : Provider}
    (h : twilioGuard env = false) (hp : providerGuard env p = true) : p = .business := by
  cases p with
  | twilio => simp [providerGuard, h] at hp
  | business => rfl

/-- C9: when provider A has no credential and provider B has its credentials,
`sendWhatsAppMessage` returns without throwing, its first and only summary
call goes through provider B, and every call it makes goes through provider
B; when neither provider has a credential it makes no call at all and returns
`false` without throwing. -/
theorem notifier_fallback_to_business (env : ProcessEnv) (rt : JsRuntime)
    (net : Nat → Except String Unit) (formData : FormData) :
    (twilioAbsent env → businessPresent env →
      (∃ b, (sendWhatsAppMessage env rt net formData).1 = .ok b) ∧
      (∀ a ∈ (sendWhatsAppMessage env rt net formData).2, a.provider = .business) ∧
      ∃ rest, (sendWhatsAppMessage env rt net formData).2 =
          businessSummary env rt formData :: rest ∧
        ∀ a ∈ rest, a.purpose = .acknowledgement) ∧
    (twilioAbsent env → businessAbsent env →
      sendWhatsAppMessage env rt net formData = (.ok false, [])) := by
  constructor
  · intro ha hb
    have hta : twilioGuard env = false := by simp [twilioGuard, ha.1]
    have htb : businessGuard env = true := by simp [businessGuard, hb.1, hb.2]
    rw [sendWhatsAppMessage_of_no_twilio env rt net formData hta]
    obtain ⟨new, h1, h2, h3, _⟩ :=
      summaryViaBusiness_trace env net [] (summaryText rt formData) formData
    obtain ⟨rest, hrest, hack⟩ := h3 htb
    refine ⟨summaryViaBusiness_ok env net [] _ formData, ?_, rest, ?_, hack⟩
    · intro a hmem
      rw [h1] at hmem
      exact provider_eq_business_of_guard hta (h2 a (by simpa using hmem))
    · rw [h1, hrest]
      rfl
  · intro ha hb
    have hta : twilioGuard env = false := by simp [twilioGuard, ha.1]
    have htb : businessGuard env = false := by simp [businessGuard, hb.1]
    rw [sendWhatsAppMessage_of_no_twilio env rt net formData hta,
      summaryViaBusiness_of_no_business env net [] _ formData htb]

theorem notifier_fallback_to_business_witness :
    (twilioAbsent businessOnly ∧ businessPresent businessOnly ∧
      (∃ b, (sendWhatsAppMessage businessOnly plainRuntime netOk sampleForm).1 = .ok b) ∧
      (∀ a ∈ (sendWhatsAppMessage businessOnly plainRuntime netOk sampleForm).2,
        a.provider = .business) ∧
      ∃ rest, (sendWhatsAppMessage businessOnly plainRuntime netOk sampleForm).2 =
          businessSummary businessOnly plainRuntime sampleForm :: rest ∧
        ∀ a ∈ rest, a.purpose = .acknowledgement) ∧
    (twilioAbsent noProviders ∧ businessAbsent noProviders ∧
      sendWhatsAppMessage noProviders plainRuntime netOk sampleForm = (.ok false, [])) :=
  ⟨⟨⟨rfl, rfl, rfl⟩, ⟨rfl, rfl⟩,
     (notifier_fallback_to_business businessOnly plainRuntime netOk sampleForm).1
       ⟨rfl, rfl, rfl⟩ ⟨rfl, rfl⟩⟩,
   ⟨⟨rfl, rfl, rfl⟩, ⟨rfl, rfl⟩,
     (notifier_fallback_to_business noProviders plainRuntime netOk sampleForm).2
       ⟨rfl, rfl, rfl⟩ ⟨rfl, rfl⟩⟩⟩

theorem sendAutoAcknowledgement_ok (env : ProcessEnv) (net : Nat → Except String Unit)
    (tr : List Attempt) (userPhone : JVal) :
    ∃ b, (sendAutoAcknowledgement env net tr userPhone).1 = .ok b := by
  have hbus : ∀ tr1 : List Attempt, ∃ b, (ackViaBusiness env net tr1 userPhone).1 = .ok b := by
    intro tr1
    by_cases hb : businessGuard env = true
    · cases hnet : net tr1.length with
      | error e => exact ⟨false, by simp [ackViaBusiness, hb, callProvider, hnet]⟩
      | ok u => exact ⟨true, by simp [ackViaBusiness, hb, callProvider, hnet]⟩
    · exact ⟨false, by simp [ackViaBusiness, hb]⟩
  by_cases ha : twilioGuard env = true
  · cases hnet : net tr.length with
    | error e =>
      simp only [sendAutoAcknowledgement, ha, if_true, callProvider, hnet]
      exact hbus _
    | ok u => exact ⟨true, by simp [sendAutoAcknowledgement, ha, callProvider, hnet]⟩
  · have ha2 : twilioGuard env = false := by simpa using ha
    simp only [sendAutoAcknowledgement, ha2]
    exact hbus _

theorem sendWhatsAppMessage_guarded (env : ProcessEnv) (rt : JsRuntime)
    (net : Nat → Except String Unit) (formData : FormData) :
    ∀ a ∈ (sendWhatsAppMessage env rt net formData).2, providerGuard env a.provider = true := by
  by_cases ha : twilioGuard env = true
  · cases hnet : net 0 with
    | error e =>
      simp only [sendWhatsAppMessage, ha, if_true, callProvider, List.length_nil, hnet,
        List.nil_append]
      obtain ⟨new, h1, h2, _⟩ := summaryViaBusiness_trace env net
        [{ provider := .twilio, purpose := .summary, body := summaryText rt formData
           sender := envVal env.TWILIO_PHONE_NUMBER
           recipient := envVal env.WHATSAPP_RECIPIENT_NUMBER }] (summaryText rt formData) formData
      intro a hmem
      rw [h1] at hmem
      rcases List.mem_append.mp hmem with h | h
      · rw [List.mem_singleton.mp h]; exact ha
      · exact h2 a h
    | ok u =>
      simp only [sendWhatsAppMessage, ha, if_true, callProvider, List.length_nil, hnet,
        List.nil_append]
      obtain ⟨new, h1, h2⟩ := sendAutoAcknowledgement_trace env net
        [{ provider := .twilio, purpose := .summary, body := summaryText rt formData
           sender := envVal env.TWILIO_PHONE_NUMBER
           recipient := envVal env.WHATSAPP_RECIPIENT_NUMBER }] formData.phone
      obtain ⟨b, hok⟩ := sendAutoAcknowledgement_ok env net
        [{ provider := .twilio, purpose := .summary, body := summaryText rt formData
           sender := envVal env.TWILIO_PHONE_NUMBER
           recipient := envVal env.WHATSAPP_RECIPIENT_NUMBER }] formData.phone
      split
      · rename_i heq
        rw [heq] at h1
        intro a hmem
        simp only at h1 hmem
        rw [h1] at hmem
        rcases List.mem_append.mp hmem with h | h
        · rw [List.mem_singleton.mp h]; exact ha
        · exact (h2 a h).2
      · rename_i heq
        rw [heq] at hok
        cases hok
  · have ha2 : twilioGuard env = false := by simpa using ha
    rw [sendWhatsAppMessage_of_no_twilio env rt net formData ha2]
    obtain ⟨new, h1, h2, _⟩ :=
      summaryViaBusiness_trace env net [] (summaryText rt formData) formData
    intro a hmem
    rw [h1] at hmem
    exact h2 a (by simpa using hmem)

theorem providerGuard_credentials {env : ProcessEnv} {p : Provider}
    (h : providerGuard env p = true) :
    (p = .twilio →
      envTruthy env.TWILIO_ACCOUNT_SID = true ∧ envTruthy env.TWILIO_AUTH_TOKEN = true) ∧
    (p = .business →
      envTruthy env.WHATSAPP_BUSINESS_TOKEN = true ∧
        envTruthy env.WHATSAPP_PHONE_NUMBER_ID = true) := by
  cases p with
  | twilio =>
    refine ⟨fun _ => ?_, fun h2 => by cases h2⟩
    simpa [providerGuard, twilioGuard] using h
  | business =>
    refine ⟨fun h2 => (by cases h2), fun _ => ?_⟩
    simpa [providerGuard, businessGuard] using h

/-- C10, as stated, fails: with the account id and the auth token of provider
A configured and its sender number unset, both `sendWhatsAppMessage` and
`sendAutoAcknowledgement` call provider A, with an undefined sender. -/
theorem twilio_called_without_sender_number :
    envTruthy twilioNoSender.TWILIO_PHONE_NUMBER = false ∧
    (sendWhatsAppMessage twilioNoSender plainRuntime netOk sampleForm).2.map
        (fun a => (a.provider, a.purpose, a.sender)) =
      [(.twilio, .summary, .undefined), (.twilio, .acknowledgement, .undefined)] ∧
    (sendAutoAcknowledgement twilioNoSender netOk [] (.str "12345")).2.map
        (fun a => (a.provider, a.purpose, a.sender)) =
      [(.twilio, .acknowledgement, .undefined)] := by
  decide

/-- C10, amended: in `sendWhatsAppMessage` and `sendAutoAcknowledgement` a
provider is called only if the credentials its guard tests are configured:
provider A only when account id and auth token are both present (the sender
number is not tested), provider B only when API token and phone-number-id are
both present. -/
theorem provider_called_only_under_its_guard (env : ProcessEnv) (rt : JsRuntime)
    (net : Nat → Except String Unit) (formData : FormData) (tr : List Attempt)
    (userPhone : JVal) :
    (∀ a ∈ (sendWhatsAppMessage env rt net formData).2,
      (a.provider = .twilio →
        envTruthy env.TWILIO_ACCOUNT_SID = true ∧ envTruthy env.TWILIO_AUTH_TOKEN = true) ∧
      (a.provider = .business →
        envTruthy env.WHATSAPP_BUSINESS_TOKEN = true ∧
          envTruthy env.WHATSAPP_PHONE_NUMBER_ID = true)) ∧
    ∃ new, (sendAutoAcknowledgement env net tr userPhone).2 = tr ++ new ∧
      ∀ a ∈ new,
        (a.provider = .twilio →
          envTruthy env.TWILIO_ACCOUNT_SID = true ∧ envTruthy env.TWILIO_AUTH_TOKEN = true) ∧
        (a.provider = .business →
          envTruthy env.WHATSAPP_BUSINESS_TOKEN = true ∧
            envTruthy env.WHATSAPP_PHONE_NUMBER_ID = true) := by
  refine ⟨fun a ha =>
    providerGuard_credentials (sendWhatsAppMessage_guarded env rt net formData a ha), ?_⟩
  obtain ⟨new, h1, h2⟩ := sendAutoAcknowledgement_trace env net tr userPhone
  exact ⟨new, h1, fun a ha => providerGuard_credentials (h2 a ha).2⟩

theorem provider_called_only_under_its_guard_witness :
    (∀ a ∈ (sendWhatsAppMessage businessOnly plainRuntime netDown sampleForm).2,
      (a.provider = .twilio →
        envTruthy businessOnly.TWILIO_ACCOUNT_SID = true ∧
          envTruthy businessOnly.TWILIO_AUTH_TOKEN = true) ∧
      (a.provider = .business →
        envTruthy businessOnly.WHATSAPP_BUSINESS_TOKEN = true ∧
          envTruthy businessOnly.WHATSAPP_PHONE_NUMBER_ID = true)) ∧
    (sendWhatsAppMessage businessOnly plainRuntime netDown sampleForm).2.length = 1 :=
  ⟨(provider_called_only_under_its_guard businessOnly plainRuntime netDown sampleForm []
      (.str "12345")).1, by decide⟩

/-! ## The notifier as a fallback chain -/

theorem netOkAt_cases (net : Nat → Except String Unit) (k : Nat) :
    (netOkAt net k = true ∧ net k = .ok ()) ∨ (netOkAt net k = false ∧ ∃ e, net k = .error e) := by
  unfold netOkAt
  cases h : net k with
  | error e => exact Or.inr ⟨rfl, e, rfl⟩
  | ok u => exact Or.inl ⟨rfl, rfl⟩

theorem summaryViaBusiness_of_ok (env : ProcessEnv) (net : Nat → Except String Unit)
    (tr : List Attempt) (message : String) (formData : FormData)
    (hb : businessGuard env = true) (hn : netOkAt net tr.length = true) :
    summaryViaBusiness env net tr message formData =
      (.ok true,
        (sendAutoAcknowledgement env net
          (tr ++ [{ provider := .business, purpose := .summary, body := message
                    sender := .undefined, recipient := envVal env.WHATSAPP_RECIPIENT_PHONE }])
          formData.phone).2) := by
  rcases netOkAt_cases net tr.length with ⟨_, h⟩ | ⟨h, _⟩
  · obtain ⟨b, hok⟩ := sendAutoAcknowledgement_ok env net
      (tr ++ [{ provider := .business, purpose := .summary, body := message
                sender := .undefined, recipient := envVal env.WHATSAPP_RECIPIENT_PHONE }])
      formData.phone
    simp only [summaryViaBusiness, hb, if_true, callProvider, h]
    split <;> rename_i heq
    · rw [heq]
    · rw [heq] at hok
      cases hok
  · rw [hn] at h; cases h

theorem summaryViaBusiness_of_error (env : ProcessEnv) (net : Nat → Except String Unit)
    (tr : List Attempt) (message : String) (formData : FormData)
    (hb : businessGuard env = true) (hn : netOkAt net tr.length = false) :
    summaryViaBusiness env net tr message formData =
      (.ok false,
        tr ++ [{ provider := .business, purpose := .summary, body := message
                 sender := .undefined, recipient := envVal env.WHATSAPP_RECIPIENT_PHONE }]) := by
  rcases netOkAt_cases net tr.length with ⟨h, _⟩ | ⟨_, e, h⟩
  · rw [hn] at h; cases h
  · simp only [summaryViaBusiness, hb, if_true, callProvider, h]

theorem sendWhatsAppMessage_of_twilio_ok (env : ProcessEnv) (rt : JsRuntime)
    (net : Nat → Except String Unit) (formData : FormData)
    (ha : twilioGuard env = true) (hn : netOkAt net 0 = true) :
    sendWhatsAppMessage env rt net formData =
      (.ok true,
        (sendAutoAcknowledgement env net [twilioSummary env rt formData] formData.phone).2) := by
  rcases netOkAt_cases net 0 with ⟨_, h⟩ | ⟨h, _⟩
  · obtain ⟨b, hok⟩ := sendAutoAcknowledgement_ok env net [twilioSummary env rt formData]
      formData.phone
    simp only [sendWhatsAppMessage, ha, if_true, callProvider, List.length_nil, h,
      List.nil_append]
    split <;> rename_i heq
    · simp only [twilioSummary]
      rw [heq]
    · simp only [twilioSummary] at hok
      rw [heq] at hok
      cases hok
  · rw [hn] at h; cases h

theorem sendWhatsAppMessage_of_twilio_error (env : ProcessEnv) (rt : JsRuntime)
    (net : Nat → Except String Unit) (formData : FormData)
    (ha : twilioGuard env = true) (hn : netOkAt net 0 = false) :
    sendWhatsAppMessage env rt net formData =
      summaryViaBusiness env net [twilioSummary env rt formData] (summaryText rt formData)
        formData := by
  rcases netOkAt_cases net 0 with ⟨h, _⟩ | ⟨_, e, h⟩
  · rw [hn] at h; cases h
  · simp only [sendWhatsAppMessage, ha, if_true, callProvider, List.length_nil, h,
      List.nil_append, twilioSummary]

/-- The acknowledgement calls `sendAutoAcknowledgement` adds to a trace: each
carries the fixed text and is addressed to the phone it was given. -/
theorem sendAutoAcknowledgement_attempts (env : ProcessEnv) (net : Nat → Except String Unit)
    (tr : List Attempt) (userPhone : JVal) :
    ∃ new, (sendAutoAcknowledgement env net tr userPhone).2 = tr ++ new ∧
      ∀ a ∈ new, a.purpose = .acknowledgement ∧ a.body = acknowledgementMessage ∧
        (a.recipient = userPhone ∨ a.recipient = .str ("whatsapp:" ++ userPhone.toStr)) := by
  have hbus : ∀ tr1 : List Attempt, ∃ new, (ackViaBusiness env net tr1 userPhone).2 = tr1 ++ new ∧
      ∀ a ∈ new, a.purpose = .acknowledgement ∧ a.body = acknowledgementMessage ∧
        (a.recipient = userPhone ∨ a.recipient = .str ("whatsapp:" ++ userPhone.toStr)) := by
    intro tr1
    by_cases hb : businessGuard env = true
    · cases hnet : net tr1.length with
      | error e =>
        simp only [ackViaBusiness, hb, if_true, callProvider, hnet]
        exact ⟨[_], rfl, by simp⟩
      | ok u =>
        simp only [ackViaBusiness, hb, if_true, callProvider, hnet]
        exact ⟨[_], rfl, by simp⟩
    · have hb2 : businessGuard env = false := by simpa using hb
      simp only [ackViaBusiness, hb2]
      exact ⟨[], by simp, by simp⟩
  by_cases ha : twilioGuard env = true
  · cases hnet : net tr.length with
    | error e =>
      simp only [sendAutoAcknowledgement, ha, if_true, callProvider, hnet]
      obtain ⟨new, h1, h2⟩ := hbus
        (tr ++ [{ provider := .twilio, purpose := .acknowledgement, body := acknowledgementMessage
                  sender := envVal env.TWILIO_PHONE_NUMBER
                  recipient := .str ("whatsapp:" ++ userPhone.toStr) }])
      refine ⟨_ :: new, by simpa using h1, ?_⟩
      intro a hmem
      rcases List.mem_cons.mp hmem with h | h
      · subst h; exact ⟨rfl, rfl, Or.inr rfl⟩
      · exact h2 a h
    | ok u =>
      simp only [sendAutoAcknowledgement, ha, if_true, callProvider, hnet]
      refine ⟨[_], rfl, ?_⟩
      intro a hmem
      rw [List.mem_singleton.mp hmem]
      exact ⟨rfl, rfl, Or.inr rfl⟩
  · have ha2 : twilioGuard env = false := by simpa using ha
    simp only [sendAutoAcknowledgement, ha2]
    exact hbus tr

theorem twilioSummary_ne_businessSummary (env : ProcessEnv) (rt : JsRuntime)
    (formData : FormData) : businessSummary env rt formData ≠ twilioSummary env rt formData := by
  intro h
  have := congrArg Attempt.provider h
  simp [businessSummary, twilioSummary] at this

theorem sendWhatsAppMessage_shape (env : ProcessEnv) (rt : JsRuntime)
    (net : Nat → Except String Unit) (formData : FormData) :
    ∃ pre acks b, ChainShape env rt net formData pre acks b := by
  unfold ChainShape
  by_cases ha : twilioGuard env = true
  · rcases Bool.eq_false_or_eq_true (netOkAt net 0) with h0 | h0
    · -- Twilio delivered the summary
      obtain ⟨new, h1, h2⟩ := sendAutoAcknowledgement_attempts env net
        [twilioSummary env rt formData] formData.phone
      refine ⟨[twilioSummary env rt formData], new, true, ?_, Or.inr (Or.inl rfl), h2, ?_, ?_,
        ?_, fun _ => rfl, ?_⟩
      · rw [sendWhatsAppMessage_of_twilio_ok env rt net formData ha h0, h1]
      · intro k hk; simp at hk
      · intro _; exact ⟨by simp, h0, h1.symm⟩
      · intro h; cases h
      · intro h
        exact absurd (List.mem_singleton.mp h) (twilioSummary_ne_businessSummary env rt formData)
    · rw [sendWhatsAppMessage_of_twilio_error env rt net formData ha h0]
      by_cases hb : businessGuard env = true
      · rcases Bool.eq_false_or_eq_true (netOkAt net 1) with h1 | h1
        · -- Twilio failed, the Business API delivered
          obtain ⟨new, hn1, hn2⟩ := sendAutoAcknowledgement_attempts env net
            [twilioSummary env rt formData, businessSummary env rt formData] formData.phone
          refine ⟨[twilioSummary env rt formData, businessSummary env rt formData], new, true,
            ?_, Or.inr (Or.inr (Or.inr rfl)), hn2, ?_, ?_, ?_, fun _ => rfl, fun _ => Or.inr h0⟩
          · rw [summaryViaBusiness_of_ok env net _ _ formData hb (by simpa using h1)]
            simp only [List.singleton_append]
            rw [← hn1]
            rfl
          · intro k hk
            have : k = 0 := by simp at hk; omega
            subst this; exact h0
          · intro _; exact ⟨by simp, by simpa using h1, hn1.symm⟩
          · intro h; cases h
        · -- both failed
          refine ⟨[twilioSummary env rt formData, businessSummary env rt formData], [], false,
            ?_, Or.inr (Or.inr (Or.inr rfl)), by simp, ?_, ?_, ?_, fun _ => rfl,
            fun _ => Or.inr h0⟩
          · rw [summaryViaBusiness_of_error env net _ _ formData hb (by simpa using h1)]
            rfl
          · intro k hk
            have : k = 0 := by simp at hk; omega
            subst this; exact h0
          · intro h; cases h
          · intro _
            refine ⟨rfl, ?_⟩
            intro k hk
            have : k = 0 ∨ k = 1 := by simp at hk; omega
            rcases this with rfl | rfl
            · exact h0
            · exact h1
      · -- Twilio failed, the Business API is not configured
        have hb2 : businessGuard env = false := by simpa using hb
        refine ⟨[twilioSummary env rt formData], [], false, ?_, Or.inr (Or.inl rfl), by simp,
          ?_, ?_, ?_, fun _ => rfl, ?_⟩
        · rw [summaryViaBusiness_of_no_business env net _ _ formData hb2]
          rfl
        · intro k hk; simp at hk
        · intro h; cases h
        · intro _
          refine ⟨rfl, ?_⟩
          intro k hk
          have : k = 0 := by simp at hk; omega
          subst this; exact h0
        · intro h
          exact absurd (List.mem_singleton.mp h)
            (twilioSummary_ne_businessSummary env rt formData)
  · have ha2 : twilioGuard env = false := by simpa using ha
    rw [sendWhatsAppMessage_of_no_twilio env rt net formData ha2]
    by_cases hb : businessGuard env = true
    · rcases Bool.eq_false_or_eq_true (netOkAt net 0) with h0 | h0
      · -- only the Business API, delivered
        obtain ⟨new, hn1, hn2⟩ := sendAutoAcknowledgement_attempts env net
          [businessSummary env rt formData] formData.phone
        refine ⟨[businessSummary env rt formData], new, true, ?_, Or.inr (Or.inr (Or.inl rfl)),
          hn2, ?_, ?_, ?_, fun h => absurd h ha, fun _ => Or.inl ha2⟩
        · rw [summaryViaBusiness_of_ok env net _ _ formData hb (by simpa using h0)]
          simp only [List.nil_append]
          rw [← hn1]
          rfl
        · intro k hk; simp at hk
        · intro _; exact ⟨by simp, h0, hn1.symm⟩
        · intro h; cases h
      · -- only the Business API, failed
        refine ⟨[businessSummary env rt formData], [], false, ?_, Or.inr (Or.inr (Or.inl rfl)),
          by simp, ?_, ?_, ?_, fun h => absurd h ha, fun _ => Or.inl ha2⟩
        · rw [summaryViaBusiness_of_error env net _ _ formData hb (by simpa using h0)]
          rfl
        · intro k hk; simp at hk
        · intro h; cases h
        · intro _
          refine ⟨rfl, ?_⟩
          intro k hk
          have : k = 0 := by simp at hk; omega
          subst this; exact h0
    · -- nothing configured
      have hb2 : businessGuard env = false := by simpa using hb
      refine ⟨[], [], false, ?_, Or.inl rfl, by simp, ?_, ?_, ?_, fun h => absurd h ha,
        fun h => by cases h⟩
      · rw [summaryViaBusiness_of_no_business env net _ _ formData hb2]
        rfl
      · intro k hk; simp at hk
      · intro h; cases h
      · intro _; exact ⟨rfl, by intro k hk; simp at hk⟩

theorem ChainShape.pre_summary {env : ProcessEnv} {rt : JsRuntime}
    {net : Nat → Except String Unit} {formData : FormData} {pre acks : List Attempt} {b : Bool}
    (h : ChainShape env rt net formData pre acks b) : ∀ a ∈ pre, a.purpose = .summary := by
  obtain ⟨_, hpre, _⟩ := h
  intro a ha
  rcases hpre with h | h | h | h <;> subst h <;> simp at ha
  · subst ha; rfl
  · subst ha; rfl
  · rcases ha with ha | ha <;> subst ha <;> rfl

theorem ChainShape.delivered_iff {env : ProcessEnv} {rt : JsRuntime}
    {net : Nat → Except String Unit} {formData : FormData} {pre acks : List Attempt} {b : Bool}
    (h : ChainShape env rt net formData pre acks b) :
    summaryDelivered net (pre ++ acks) ↔ b = true := by
  have hsum := h.pre_summary
  obtain ⟨_, _, hacks, _, htrue, hfalse, _, _⟩ := h
  constructor
  · rintro ⟨k, a, hk, hp, hn⟩
    cases b with
    | true => rfl
    | false =>
      obtain ⟨hnil, hall⟩ := hfalse rfl
      subst hnil
      rw [List.append_nil] at hk
      have hlt : k < pre.length := by
        rw [List.get?_eq_some] at hk
        exact hk.1
      rw [hall k hlt] at hn
      cases hn
  · intro hb
    obtain ⟨hne, hn, _⟩ := htrue hb
    have hlt : pre.length - 1 < pre.length := by
      have : 0 < pre.length := List.length_pos.mpr hne
      omega
    refine ⟨pre.length - 1, pre.get ⟨pre.length - 1, hlt⟩, ?_, ?_, hn⟩
    · rw [List.get?_eq_getElem?, List.getElem?_append_left hlt]
      simp
    · exact hsum _ (List.get_mem _ _ _)

theorem summaryProviders_append_acks (pre acks : List Attempt)
    (h : ∀ a ∈ acks, a.purpose = .acknowledgement) :
    summaryProviders (pre ++ acks) = summaryProviders pre := by
  have : acks.filter (fun a => decide (a.purpose = .summary)) = [] := by
    rw [List.filter_eq_nil_iff]
    intro a ha
    simp [h a ha]
  simp [summaryProviders, List.filter_append, this]

/-- C11: for every configuration and every outcome of the provider calls,
`sendWhatsAppMessage` returns a boolean without throwing, and that boolean is
true exactly when one of its summary calls resolved; the summary is attempted
through each provider at most once and through A before B; when A is
configured the first call is A's summary, and a summary call through B occurs
only if A is not configured or A's call (call number 0) failed. -/
theorem notifier_tries_twilio_then_business (env : ProcessEnv) (rt : JsRuntime)
    (net : Nat → Except String Unit) (formData : FormData) :
    ∃ b, (sendWhatsAppMessage env rt net formData).1 = .ok b ∧
      (b = true ↔ summaryDelivered net (sendWhatsAppMessage env rt net formData).2) ∧
      (summaryProviders (sendWhatsAppMessage env rt net formData).2 = [] ∨
        summaryProviders (sendWhatsAppMessage env rt net formData).2 = [.twilio] ∨
        summaryProviders (sendWhatsAppMessage env rt net formData).2 = [.business] ∨
        summaryProviders (sendWhatsAppMessage env rt net formData).2 = [.twilio, .business]) ∧
      (twilioGuard env = true →
        (sendWhatsAppMessage env rt net formData).2.head? =
          some (twilioSummary env rt formData)) ∧
      (businessSummary env rt formData ∈ (sendWhatsAppMessage env rt net formData).2 →
        twilioGuard env = false ∨ netOkAt net 0 = false) := by
  obtain ⟨pre, acks, b, hshape⟩ := sendWhatsAppMessage_shape env rt net formData
  have hdel := hshape.delivered_iff
  obtain ⟨hres, hpre, hacks, _, _, _, hhead, hbus⟩ := hshape
  have hackp : ∀ a ∈ acks, a.purpose = .acknowledgement := fun a ha => (hacks a ha).1
  rw [hres]
  refine ⟨b, rfl, hdel.symm, ?_, ?_, ?_⟩
  · simp only [summaryProviders_append_acks pre acks hackp]
    rcases hpre with h | h | h | h <;> subst h
    · exact Or.inl rfl
    · exact Or.inr (Or.inl rfl)
    · exact Or.inr (Or.inr (Or.inl rfl))
    · exact Or.inr (Or.inr (Or.inr rfl))
  · intro ha
    have := hhead ha
    cases pre with
    | nil => simp at this
    | cons x xs => simpa using this
  · intro hmem
    rcases List.mem_append.mp hmem with h | h
    · exact hbus h
    · have := hackp _ h
      simp [businessSummary] at this

/-- C12: in one run of `sendWhatsAppMessage` every acknowledgement call comes
after a summary call that resolved, so without a delivered summary there is
no acknowledgement call; once a summary is delivered the rest of the run is
`sendAutoAcknowledgement` on the submitter's phone; and every acknowledgement
call carries the fixed text and is addressed to the submitter's phone (with
the prefix `whatsapp:` through Twilio). -/
theorem acknowledgement_only_after_summary (env : ProcessEnv) (rt : JsRuntime)
    (net : Nat → Except String Unit) (formData : FormData) :
    (∀ k a, (sendWhatsAppMessage env rt net formData).2.get? k = some a →
      a.purpose = .acknowledgement →
      ∃ j s, j < k ∧ (sendWhatsAppMessage env rt net formData).2.get? j = some s ∧
        s.purpose = .summary ∧ netOkAt net j = true) ∧
    (¬ summaryDelivered net (sendWhatsAppMessage env rt net formData).2 →
      ∀ a ∈ (sendWhatsAppMessage env rt net formData).2, a.purpose ≠ .acknowledgement) ∧
    (summaryDelivered net (sendWhatsAppMessage env rt net formData).2 →
      ∃ pre, pre ≠ [] ∧ (∀ a ∈ pre, a.purpose = .summary) ∧
        (sendWhatsAppMessage env rt net formData).2 =
          (sendAutoAcknowledgement env net pre formData.phone).2) ∧
    (∀ a ∈ (sendWhatsAppMessage env rt net formData).2, a.purpose = .acknowledgement →
      a.body = "Thanks for your submission! We\x27ll get back to you shortly." ∧
      (a.recipient = formData.phone ∨
        a.recipient = .str ("whatsapp:" ++ formData.phone.toStr))) := by
  obtain ⟨pre, acks, b, hshape⟩ := sendWhatsAppMessage_shape env rt net formData
  have hdel := hshape.delivered_iff
  have hsum := hshape.pre_summary
  obtain ⟨hres, _, hacks, _, htrue, hfalse, _, _⟩ := hshape
  rw [hres]
  simp only
  refine ⟨?_, ?_, ?_, ?_⟩
  · intro k a hk hp
    have hge : pre.length ≤ k := by
      by_contra hlt
      push_neg at hlt
      rw [List.get?_eq_getElem?, List.getElem?_append_left hlt] at hk
      have hmem : a ∈ pre := List.getElem?_mem hk
      rw [hsum a hmem] at hp
      cases hp
    have hb : b = true := by
      cases b with
      | true => rfl
      | false =>
        obtain ⟨hnil, _⟩ := hfalse rfl
        subst hnil
        rw [List.append_nil, List.get?_eq_some] at hk
        obtain ⟨hlt, _⟩ := hk
        omega
    obtain ⟨hne, hn, _⟩ := htrue hb
    have hpos : 0 < pre.length := List.length_pos.mpr hne
    have hlt : pre.length - 1 < pre.length := by omega
    refine ⟨pre.length - 1, pre.get ⟨pre.length - 1, hlt⟩, by omega, ?_,
      hsum _ (List.get_mem _ _ _), hn⟩
    rw [List.get?_eq_getElem?, List.getElem?_append_left hlt]
    simp
  · intro hnd a ha hp
    have hb : b = false := by
      cases b with
      | false => rfl
      | true => exact absurd (hdel.mpr rfl) hnd
    obtain ⟨hnil, _⟩ := hfalse hb
    subst hnil
    rw [List.append_nil] at ha
    rw [hsum a ha] at hp
    cases hp
  · intro hd
    obtain ⟨hne, _, heq⟩ := htrue (hdel.mp hd)
    exact ⟨pre, hne, hsum, heq⟩
  · intro a ha hp
    rcases List.mem_append.mp ha with h | h
    · rw [hsum a h] at hp
      cases hp
    · obtain ⟨_, hbody, hrec⟩ := hacks a h
      exact ⟨hbody, hrec⟩

theorem acknowledgement_only_after_summary_witness :
    summaryDelivered netOk (sendWhatsAppMessage businessOnly plainRuntime netOk sampleForm).2 ∧
    ∃ pre, pre ≠ [] ∧ (∀ a ∈ pre, a.purpose = .summary) ∧
      (sendWhatsAppMessage businessOnly plainRuntime netOk sampleForm).2 =
        (sendAutoAcknowledgement businessOnly netOk pre sampleForm.phone).2 :=
  ⟨⟨0, businessSummary businessOnly plainRuntime sampleForm, rfl, rfl, rfl⟩,
   (acknowledgement_only_after_summary businessOnly plainRuntime netOk sampleForm).2.2.1
     ⟨0, businessSummary businessOnly plainRuntime sampleForm, rfl, rfl, rfl⟩⟩

/-! ## The answer of the intake handler -/

theorem submitForm_of_invalid (env : ProcessEnv) (rt : JsRuntime)
    (net : Nat → Except String Unit) (fault : Bool) (now : Nat) (st : Store) (body : SubmitBody)
    (hg : (!body.name.truthy || !body.phone.truthy) = true) :
    submitForm env rt net fault now st body =
      { response :=
          { status := 400, success := false, message := "Name and phone number are required"
            submissionId := none }
        store := st, attempts := [], notified := false } := by
  simp [submitForm, hg]

theorem submitForm_of_insert_error (env : ProcessEnv) (rt : JsRuntime)
    (net : Nat → Except String Unit) (fault : Bool) (now : Nat) (st : Store) (body : SubmitBody)
    (e : String) (hg : (!body.name.truthy || !body.phone.truthy) = false)
    (hins : insertSubmission fault now st body.name body.email body.phone body.company
      body.message = .error e) :
    submitForm env rt net fault now st body =
      { response :=
          { status := 500, success := false, message := "Error saving form data"
            submissionId := none }
        store := st, attempts := [], notified := false } := by
  simp [submitForm, hg, hins]

theorem submitForm_of_insert_ok (env : ProcessEnv) (rt : JsRuntime)
    (net : Nat → Except String Unit) (fault : Bool) (now : Nat) (st : Store) (body : SubmitBody)
    (res : Store × Nat) (hg : (!body.name.truthy || !body.phone.truthy) = false)
    (hins : insertSubmission fault now st body.name body.email body.phone body.company
      body.message = .ok res) :
    submitForm env rt net fault now st body =
      { response :=
          { status := 200, success := true, message := "Form submitted successfully!"
            submissionId := some (toDouble res.2) }
        store := res.1
        attempts := (sendWhatsAppMessage env rt net
          { name := body.name, email := body.email, phone := body.phone
            company := body.company, message := body.message
            submissionId := toDouble res.2 }).2
        notified := true } := by
  simp [submitForm, hg, hins]

/-- C13: two runs of the submit handler on the same request body, store,
storage state and time, with any two provider configurations, runtimes and
provider outcomes, give the same response and the same store; and whenever
the insert succeeds the response is 200 with `success: true`, also when every
provider call fails. -/
theorem submit_response_independent_of_notification (env1 env2 : ProcessEnv)
    (rt1 rt2 : JsRuntime) (net1 net2 : Nat → Except String Unit) (fault : Bool) (now : Nat)
    (st : Store) (body : SubmitBody) :
    (submitForm env1 rt1 net1 fault now st body).response =
      (submitForm env2 rt2 net2 fault now st body).response ∧
    (submitForm env1 rt1 net1 fault now st body).store =
      (submitForm env2 rt2 net2 fault now st body).store ∧
    (body.name.truthy = true → body.phone.truthy = true →
      (∃ res, insertSubmission fault now st body.name body.email body.phone body.company
        body.message = .ok res) →
      (submitForm env1 rt1 netDown fault now st body).response.status = 200 ∧
      (submitForm env1 rt1 netDown fault now st body).response.success = true) := by
  by_cases hg : (!body.name.truthy || !body.phone.truthy) = true
  · rw [submitForm_of_invalid env1 rt1 net1 fault now st body hg,
      submitForm_of_invalid env2 rt2 net2 fault now st body hg]
    refine ⟨rfl, rfl, ?_⟩
    intro h1 h2
    simp [h1, h2] at hg
  · have hg2 : (!body.name.truthy || !body.phone.truthy) = false := by simpa using hg
    cases hins : insertSubmission fault now st body.name body.email body.phone body.company
      body.message with
    | error e =>
      rw [submitForm_of_insert_error env1 rt1 net1 fault now st body e hg2 hins,
        submitForm_of_insert_error env2 rt2 net2 fault now st body e hg2 hins]
      refine ⟨rfl, rfl, ?_⟩
      rintro _ _ ⟨res, hres⟩
      cases hres
    | ok res =>
      rw [submitForm_of_insert_ok env1 rt1 net1 fault now st body res hg2 hins,
        submitForm_of_insert_ok env2 rt2 net2 fault now st body res hg2 hins,
        submitForm_of_insert_ok env1 rt1 netDown fault now st body res hg2 hins]
      exact ⟨rfl, rfl, fun _ _ _ => ⟨rfl, rfl⟩⟩

theorem submit_response_independent_of_notification_witness :
    (submitForm twilioNoSender plainRuntime netDown false 1705320000 Store.empty
      noonBody).response.status = 200 ∧
    (submitForm twilioNoSender plainRuntime netDown false 1705320000 Store.empty
      noonBody).response.success = true :=
  (submit_response_independent_of_notification twilioNoSender businessOnly plainRuntime
    plainRuntime netOk netDown false 1705320000 Store.empty noonBody).2.2 rfl rfl ⟨_, rfl⟩

/-- C14: for a submission that passes the handler's validation, a failing
insert gives status 500, `success: false`, the message `Error saving form
data`, no submissionId, an unchanged store and no notification; and the
status is 400 exactly when validation fails, 500 exactly when validation
passes and the insert fails, 200 exactly when both succeed. -/
theorem submit_status_by_outcome (env : ProcessEnv) (rt : JsRuntime)
    (net : Nat → Except String Unit) (fault : Bool) (now : Nat) (st : Store)
    (body : SubmitBody) :
    (body.name.truthy = true → body.phone.truthy = true →
      (∃ e, insertSubmission fault now st body.name body.email body.phone body.company
        body.message = .error e) →
      submitForm env rt net fault now st body =
        { response :=
            { status := 500, success := false, message := "Error saving form data"
              submissionId := none }
          store := st, attempts := [], notified := false }) ∧
    ((submitForm env rt net fault now st body).response.status = 400 ↔
      (body.name.truthy = false ∨ body.phone.truthy = false)) ∧
    ((submitForm env rt net fault now st body).response.status = 500 ↔
      (body.name.truthy = true ∧ body.phone.truthy = true ∧
        ∃ e, insertSubmission fault now st body.name body.email body.phone body.company
          body.message = .error e)) ∧
    ((submitForm env rt net fault now st body).response.status = 200 ↔
      (body.name.truthy = true ∧ body.phone.truthy = true ∧
        ∃ res, insertSubmission fault now st body.name body.email body.phone body.company
          body.message = .ok res)) := by
  by_cases hg : (!body.name.truthy || !body.phone.truthy) = true
  · have hor : body.name.truthy = false ∨ body.phone.truthy = false := by
      simpa using hg
    have hnot : ¬ (body.name.truthy = true ∧ body.phone.truthy = true) := by
      rintro ⟨h1, h2⟩
      rcases hor with h | h
      · rw [h] at h1; cases h1
      · rw [h] at h2; cases h2
    rw [submitForm_of_invalid env rt net fault now st body hg]
    refine ⟨fun h1 h2 => absurd ⟨h1, h2⟩ hnot, ⟨fun _ => hor, fun _ => rfl⟩, ?_, ?_⟩
    · constructor
      · intro h; simp at h
      · rintro ⟨h1, h2, _⟩; exact absurd ⟨h1, h2⟩ hnot
    · constructor
      · intro h; simp at h
      · rintro ⟨h1, h2, _⟩; exact absurd ⟨h1, h2⟩ hnot
  · have hg2 : (!body.name.truthy || !body.phone.truthy) = false := by simpa using hg
    have hand : body.name.truthy = true ∧ body.phone.truthy = true := by
      simpa using hg2
    have hnor : ¬ (body.name.truthy = false ∨ body.phone.truthy = false) := by
      rintro (h | h)
      · rw [hand.1] at h; cases h
      · rw [hand.2] at h; cases h
    cases hins : insertSubmission fault now st body.name body.email body.phone body.company
      body.message with
    | error e =>
      rw [submitForm_of_insert_error env rt net fault now st body e hg2 hins]
      refine ⟨fun _ _ _ => rfl, ?_, ?_, ?_⟩
      · constructor
        · intro h; simp at h
        · intro h; exact absurd h hnor
      · exact ⟨fun _ => ⟨hand.1, hand.2, e, rfl⟩, fun _ => rfl⟩
      · constructor
        · intro h; simp at h
        · rintro ⟨_, _, res, hres⟩; cases hres
    | ok res =>
      rw [submitForm_of_insert_ok env rt net fault now st body res hg2 hins]
      refine ⟨?_, ?_, ?_, ?_⟩
      · rintro _ _ ⟨e, he⟩; cases he
      · constructor
        · intro h; simp at h
        · intro h; exact absurd h hnor
      · constructor
        · intro h; simp at h
        · rintro ⟨_, _, e, he⟩; cases he
      · exact ⟨fun _ => ⟨hand.1, hand.2, res, rfl⟩, fun _ => rfl⟩

theorem submit_status_by_outcome_witness :
    submitForm businessOnly plainRuntime netOk true 1705320000 Store.empty noonBody =
      { response :=
          { status := 500, success := false, message := "Error saving form data"
            submissionId := none }
        store := Store.empty, attempts := [], notified := false } :=
  (submit_status_by_outcome businessOnly plainRuntime netOk true 1705320000 Store.empty
    noonBody).1 rfl rfl ⟨_, rfl⟩

/-- C18, as stated, fails: a submission missing only the name, one missing
only the phone and one missing both receive the same answer, which names no
field. -/
theorem rejections_do_not_name_the_field :
    (submitForm noProviders plainRuntime netOk false 0 Store.empty
        { noonBody with name := .undefined }).response =
      (submitForm noProviders plainRuntime netOk false 0 Store.empty
        { noonBody with phone := .undefined }).response ∧
    (submitForm noProviders plainRuntime netOk false 0 Store.empty
        { noonBody with phone := .undefined }).response =
      (submitForm noProviders plainRuntime netOk false 0 Store.empty
        { noonBody with name := .undefined, phone := .undefined }).response ∧
    (submitForm noProviders plainRuntime netOk false 0 Store.empty
        { noonBody with name := .undefined }).response.message =
      "Name and phone number are required" := by
  decide

/-- C18, amended: every submission the handler rejects receives the same
answer, status 400 with `success: false` and the one message `Name and phone
number are required`, whichever of the two required fields is missing. -/
theorem rejection_is_one_fixed_answer (env : ProcessEnv) (rt : JsRuntime)
    (net : Nat → Except String Unit) (fault : Bool) (now : Nat) (st : Store)
    (body : SubmitBody) (h : body.name.missingOrEmpty ∨ body.phone.missingOrEmpty) :
    (submitForm env rt net fault now st body).response = rejection := by
  have hg : (!body.name.truthy || !body.phone.truthy) = true := by
    rcases h with h | h
    · simp [truthy_false_of_missingOrEmpty h]
    · simp [truthy_false_of_missingOrEmpty h]
  rw [submitForm_of_invalid env rt net fault now st body hg]
  rfl

theorem rejection_is_one_fixed_answer_witness :
    (({ noonBody with phone := .str "" } : SubmitBody).name.missingOrEmpty ∨
      ({ noonBody with phone := .str "" } : SubmitBody).phone.missingOrEmpty) ∧
    (submitForm businessOnly plainRuntime netOk false 0 Store.empty
      { noonBody with phone := .str "" }).response = rejection :=
  ⟨by decide,
   rejection_is_one_fixed_answer businessOnly plainRuntime netOk false 0 Store.empty
     { noonBody with phone := .str "" } (by decide)⟩

/-! ## The store invariant -/

theorem nonEmptyText_bindParam {v : JVal} (h : v.truthy = true) : nonEmptyText (bindParam v) := by
  have hne : ∀ t : NonEmptyText, t.text ≠ "" := by
    intro t ht
    have := congrArg String.data ht
    simp [NonEmptyText.text] at this
  cases v with
  | undefined => cases h
  | null => cases h
  | str s => exact ⟨s, rfl, by simpa [JVal.truthy] using h⟩
  | bool b =>
    have hb : b = true := by simpa [JVal.truthy] using h
    subst hb
    exact ⟨"1", rfl, by decide⟩
  | num zero text stored => exact ⟨stored.text, rfl, hne stored⟩
  | obj text stored => exact ⟨stored.text, rfl, hne stored⟩

theorem submitForm_store_cases (env : ProcessEnv) (rt : JsRuntime)
    (net : Nat → Except String Unit) (fault : Bool) (now : Nat) (st : Store)
    (body : SubmitBody) :
    (submitForm env rt net fault now st body).store = st ∨
    (body.name.truthy = true ∧ body.phone.truthy = true ∧
      (submitForm env rt net fault now st body).store =
        { rows := st.rows ++
            [{ id := max st.seq (maxRowid st.rows) + 1, name := bindParam body.name
               email := bindParam body.email, phone := bindParam body.phone
               company := bindParam body.company, message := bindParam body.message
               created_at := some (currentTimestamp now) }]
          seq := max st.seq (maxRowid st.rows) + 1 }) := by
  by_cases hg : (!body.name.truthy || !body.phone.truthy) = true
  · rw [submitForm_of_invalid env rt net fault now st body hg]
    exact Or.inl rfl
  · have hg2 : (!body.name.truthy || !body.phone.truthy) = false := by simpa using hg
    have hand : body.name.truthy = true ∧ body.phone.truthy = true := by
      simpa using hg2
    cases hins : insertSubmission fault now st body.name body.email body.phone body.company
      body.message with
    | error e =>
      rw [submitForm_of_insert_error env rt net fault now st body e hg2 hins]
      exact Or.inl rfl
    | ok res =>
      rw [submitForm_of_insert_ok env rt net fault now st body res hg2 hins]
      obtain ⟨hid, hst⟩ := insertSubmission_ok hins
      refine Or.inr ⟨hand.1, hand.2, ?_⟩
      simp only
      rw [hst, hid]

theorem handle_preserves_inv (st : Store) (req : Request) (h : StoreInv st) :
    StoreInv (handle st req) := by
  cases req with
  | list fault => exact h
  | exportCsv rt fault s e => exact h
  | submit env rt net fault now body =>
    simp only [handle]
    rcases submitForm_store_cases env rt net fault now st body with hs | ⟨hn, hp, hs⟩
    · rw [hs]; exact h
    · rw [hs]
      obtain ⟨hnodup, hrows⟩ := h
      constructor
      · simp only [List.map_append, List.map_cons, List.map_nil]
        rw [List.nodup_append]
        refine ⟨hnodup, List.nodup_singleton _, ?_⟩
        intro a ha hb
        rw [List.mem_singleton] at hb
        obtain ⟨r, hr, rfl⟩ := List.mem_map.mp ha
        have h1 := le_maxRowid hr
        have h2 : maxRowid st.rows ≤ max st.seq (maxRowid st.rows) := le_max_right _ _
        omega
      · intro r hr
        rcases List.mem_append.mp hr with h1 | h1
        · exact hrows r h1
        · rw [List.mem_singleton.mp h1]
          exact ⟨nonEmptyText_bindParam hn, nonEmptyText_bindParam hp⟩

theorem run_preserves_inv (reqs : List Request) :
    ∀ st : Store, StoreInv st → StoreInv (run st reqs) := by
  induction reqs with
  | nil => intro st h; exact h
  | cons req rest ih =>
    intro st h
    exact ih (handle st req) (handle_preserves_inv st req h)

theorem storeInv_empty : StoreInv Store.empty :=
  ⟨List.nodup_nil, fun r hr => by cases hr⟩

/-- C15: in every store reached from the empty table by any sequence of
submit, list and export requests, the ids are pairwise distinct and every row
has a non-empty name and a non-empty phone; a list or export request leaves
the store as it is, and after any request the rows that were stored are
still there, unchanged and in place, as a prefix of the table. -/
theorem store_invariant_reachable (reqs : List Request) :
    ((run Store.empty reqs).rows.map (fun r => r.id)).Nodup ∧
    (∀ r ∈ (run Store.empty reqs).rows,
      (∃ n, r.name = some n ∧ n ≠ "") ∧ (∃ p, r.phone = some p ∧ p ≠ "")) ∧
    (∀ (st : Store) (fault : Bool), handle st (.list fault) = st) ∧
    (∀ (st : Store) (rt : JsRuntime) (fault : Bool) (startDate endDate : Option String),
      handle st (.exportCsv rt fault startDate endDate) = st) ∧
    (∀ (st : Store) (req : Request), st.rows <+: (handle st req).rows) := by
  obtain ⟨h1, h2⟩ := run_preserves_inv reqs Store.empty storeInv_empty
  refine ⟨h1, h2, fun _ _ => rfl, fun _ _ _ _ _ => rfl, ?_⟩
  intro st req
  cases req with
  | list fault => exact List.prefix_refl _
  | exportCsv rt fault s e => exact List.prefix_refl _
  | submit env rt net fault now body =>
    simp only [handle]
    rcases submitForm_store_cases env rt net fault now st body with hs | ⟨_, _, hs⟩
    · rw [hs]
    · rw [hs]
      exact List.prefix_append _ _

/-! ## Rendering of times -/

/-- C16 at a failing input: for the stored text `2024-01-15 12:00:00` (UTC),
whose wall-clock time at UTC+5:30 is 17:30:00, `toISTString` gives 17:30:00 on
a server in the UTC zone but 12:00:00 on a server in the zone UTC+5:30 and
22:30:00 on a server in the zone UTC-5, so the exported line differs between
servers. -/
theorem created_at_rendering_follows_server_zone :
    currentTimestamp 1705320000 = "2024-01-15 12:00:00" ∧
    enIN (1705320000 * 1000 + 330 * 60000) = "15/1/2024, 17:30:00" ∧
    toISTString (zoneRuntime 0 enIN 0) (.text "2024-01-15 12:00:00") = "15/1/2024, 17:30:00" ∧
    toISTString (zoneRuntime (-330) enIN 0) (.text "2024-01-15 12:00:00") =
      "15/1/2024, 12:00:00" ∧
    toISTString (zoneRuntime 300 enIN 0) (.text "2024-01-15 12:00:00") =
      "15/1/2024, 22:30:00" ∧
    csvLine (zoneRuntime 0 enIN 0) (janeRow 1 (some (currentTimestamp 1705320000))) ≠
      csvLine (zoneRuntime (-330) enIN 0) (janeRow 1 (some (currentTimestamp 1705320000))) := by
  decide

/-- C17: in a zone of any fixed offset, `toISTString` of a `Date` object for
the instant `t` is the rendering of the local time of `t` at UTC+5:30, which
is what a process in the zone UTC+5:30 prints for `t`; so the summary text,
whose time is `toISTString(new Date())`, is the same for every offset. -/
theorem toISTString_of_date_is_ist (off : Int) (fmt : Int → String) (clock t : Int) :
    toISTString (zoneRuntime off fmt clock) (.date t) = fmt (t + 330 * 60000) ∧
    toISTString (zoneRuntime off fmt clock) (.date t) =
      (zoneRuntime (-330) fmt clock).toLocaleString t ∧
    ∀ (off2 : Int) (formData : FormData),
      summaryText (zoneRuntime off fmt clock) formData =
        summaryText (zoneRuntime off2 fmt clock) formData := by
  have h : ∀ (o : Int) (u : Int),
      toISTString (zoneRuntime o fmt clock) (.date u) = fmt (u + 330 * 60000) := by
    intro o u
    simp only [toISTString, zoneRuntime]
    exact congrArg fmt (by omega)
  refine ⟨h off t, ?_, ?_⟩
  · rw [h off t]
    simp only [zoneRuntime]
    exact congrArg fmt (by omega)
  · intro off2 formData
    have hc : ∀ o : Int, (zoneRuntime o fmt clock).clock = clock := fun _ => rfl
    simp only [summaryText, hc, h]

/-! ## Properties of the contact form -/

theorem phoneRegexChars_plus (d : Char) (rest : List Char) :
    phoneRegexChars ('+' :: d :: rest) =
      (isDigit19 d && decide (rest.length ≤ 15) && rest.all isDigit09) := by
  simp [phoneRegexChars]

theorem phoneRegexChars_cons (d : Char) (rest : List Char) (hne : d ≠ '+') :
    phoneRegexChars (d :: rest) =
      (isDigit19 d && decide (rest.length ≤ 15) && rest.all isDigit09) := by
  unfold phoneRegexChars
  split
  · rename_i heq
    simp at heq
    exact absurd heq.1 hne
  · rename_i heq
    simp at heq
    obtain ⟨rfl, rfl⟩ := heq
    rfl
  · rename_i heq
    simp at heq

theorem ne_plus_of_isDigit19 {d : Char} (h : isDigit19 d = true) : d ≠ '+' := by
  rintro rfl
  exact absurd h (by decide)

theorem shape_of_body {d : Char} {rest : List Char}
    (h : (isDigit19 d && decide (rest.length ≤ 15) && rest.all isDigit09) = true) :
    ('1' ≤ d ∧ d ≤ '9') ∧ rest.length ≤ 15 ∧ ∀ c ∈ rest, '0' ≤ c ∧ c ≤ '9' := by
  simp only [Bool.and_eq_true, decide_eq_true_eq, List.all_eq_true, isDigit19, isDigit09] at h
  exact ⟨h.1.1, h.1.2, h.2⟩

theorem body_of_shape {d : Char} {rest : List Char}
    (hd : '1' ≤ d ∧ d ≤ '9') (hl : rest.length ≤ 15) (hr : ∀ c ∈ rest, '0' ≤ c ∧ c ≤ '9') :
    (isDigit19 d && decide (rest.length ≤ 15) && rest.all isDigit09) = true := by
  simp only [Bool.and_eq_true, decide_eq_true_eq, List.all_eq_true, isDigit19, isDigit09]
  exact ⟨⟨hd, hl⟩, hr⟩

theorem phoneRegexChars_iff (cs : List Char) :
    phoneRegexChars cs = true ↔ leadingNonZeroShape cs := by
  constructor
  · intro h
    cases cs with
    | nil => exact absurd h (by decide)
    | cons c tl =>
      by_cases hc : c = '+'
      · subst hc
        cases tl with
        | nil => exact absurd h (by decide)
        | cons d rest =>
          rw [phoneRegexChars_plus] at h
          obtain ⟨hd, hl, hr⟩ := shape_of_body h
          exact ⟨['+'], d, rest, rfl, Or.inr rfl, hd, hl, hr⟩
      · rw [phoneRegexChars_cons c tl hc] at h
        obtain ⟨hd, hl, hr⟩ := shape_of_body h
        exact ⟨[], c, tl, rfl, Or.inl rfl, hd, hl, hr⟩
  · rintro ⟨sign, d, rest, rfl, hsign, hd, hl, hr⟩
    have hbody := body_of_shape hd hl hr
    rcases hsign with rfl | rfl
    · have h19 : isDigit19 d = true := by
        simp only [isDigit19, decide_eq_true_eq]; exact hd
      rw [List.nil_append, phoneRegexChars_cons d rest (ne_plus_of_isDigit19 h19)]
      exact hbody
    · rw [List.singleton_append, phoneRegexChars_plus]
      exact hbody

/-- C19: `validateForm` runs its three checks independently: the keys of the
errors it sets are `name` when the name is empty after trimming, then `phone`
when the phone is empty after trimming or fails the phone pattern, then
`email` when the email is not empty and fails the email pattern; it returns
true exactly when it sets no error; and a blank name with the phone `abc` and
the email `x` gets all three errors together. -/
theorem validateForm_checks_independently (formData : FormState) :
    (validateForm formData).1.keys =
      (if jsTrim formData.name = "" then ["name"] else []) ++
      (if jsTrim formData.phone = "" ∨ phonePattern formData.phone = false then ["phone"]
        else []) ++
      (if formData.email ≠ "" ∧ emailPattern formData.email = false then ["email"] else []) ∧
    ((validateForm formData).2 = true ↔ (validateForm formData).1.keys = []) ∧
    validateForm (formWith "   " "abc" "x") =
      ({ name := some "Name is required", phone := some "Please enter a valid phone number"
         email := some "Please enter a valid email address" }, false) := by
  refine ⟨?_, ?_, by decide⟩
  · simp only [validateForm, FormErrors.keys]
    by_cases hn : jsTrim formData.name = "" <;>
      by_cases hp : jsTrim formData.phone = "" <;>
      by_cases hpp : phonePattern formData.phone = true <;>
      by_cases he : formData.email = "" <;>
      by_cases hee : emailPattern formData.email = true <;>
      simp [hn, hp, hpp, he, hee]
  · simp only [validateForm, decide_eq_true_eq, List.length_eq_zero]

/-- C20, as stated, fails: `0123` and `+0` are an optional `+` followed by
1 to 16 digits, and the form reports both as invalid phone numbers. -/
theorem form_reports_leading_zero_phone :
    specPhoneShape (removeSpaces "0123").data = true ∧
    (validateForm (formWith "A" "0123" "")).1.phone =
      some "Please enter a valid phone number" ∧
    specPhoneShape (removeSpaces "+0").data = true ∧
    (validateForm (formWith "A" "+0" "")).1.phone =
      some "Please enter a valid phone number" := by
  decide

/-- C20, amended: `validateForm` accepts a non-blank phone exactly when, with
its whitespace removed, it is an optional leading `+`, a digit from 1 to 9 and
then at most 15 further decimal digits; every other non-blank phone is
reported as `Please enter a valid phone number`. -/
theorem form_accepts_phone_iff_leading_nonzero (formData : FormState)
    (h : jsTrim formData.phone ≠ "") :
    ((validateForm formData).1.phone = none ↔
      leadingNonZeroShape (removeSpaces formData.phone).data) ∧
    (¬ leadingNonZeroShape (removeSpaces formData.phone).data →
      (validateForm formData).1.phone = some "Please enter a valid phone number") := by
  have hiff := phoneRegexChars_iff (removeSpaces formData.phone).data
  by_cases hp : phonePattern formData.phone = true
  · have hshape : leadingNonZeroShape (removeSpaces formData.phone).data := hiff.mp hp
    simp [validateForm, h, hp, hshape]
  · have hshape : ¬ leadingNonZeroShape (removeSpaces formData.phone).data :=
      fun hs => hp (hiff.mpr hs)
    simp [validateForm, h, hp, hshape]

theorem form_accepts_phone_iff_leading_nonzero_witness :
    jsTrim (formWith "A" "+1 555 1234567" "").phone ≠ "" ∧
    (((validateForm (formWith "A" "+1 555 1234567" "")).1.phone = none ↔
      leadingNonZeroShape (removeSpaces (formWith "A" "+1 555 1234567" "").phone).data) ∧
    (¬ leadingNonZeroShape (removeSpaces (formWith "A" "+1 555 1234567" "").phone).data →
      (validateForm (formWith "A" "+1 555 1234567" "")).1.phone =
        some "Please enter a valid phone number")) :=
  ⟨by decide, form_accepts_phone_iff_leading_nonzero (formWith "A" "+1 555 1234567" "")
    (by decide)⟩

/-! ## The admin panel against the export -/

/-- C23 at failing inputs, the search term empty and the browser in the UTC
zone. With two stored rows (2024-01-15 and 2024-02-15, noon UTC) and only the
start date 2024-02-01 picked, the button announces 1 row and the server
writes 2. With the single row of 2024-01-15 12:00:00 and the bounds
2024-01-15T00:00:00.000Z and 2024-01-16T00:00:00.000Z, the button announces 1
row and the server writes none. -/
theorem export_button_count_differs_from_export :
    (filterSubmissions (zoneRuntime 0 enIN 0) id (selectAllDesc twoMonthStore) ""
      (some 1706745600000) none).length = 1 ∧
    (exportedRows (some 1706745600000) none twoMonthStore).length = 2 ∧
    (filterSubmissions (zoneRuntime 0 enIN 0) id (selectAllDesc noonStore) ""
      (some 1705276800000) (some 1705363200000)).length = 1 ∧
    (exportedRows (some 1705276800000) (some 1705363200000) noonStore).length = 0 ∧
    exportQuery (some 1705276800000) (some 1705363200000) =
      (some "2024-01-15T00:00:00.000Z", some "2024-01-16T00:00:00.000Z") := by
  decide

/-! ## Recovering the fields of a CSV line -/

theorem marked_injective {a b : String} (h : marked a = marked b) : a = b := by
  unfold marked at h
  by_cases ha : a = "" <;> by_cases hb : b = ""
  · rw [ha, hb]
  · simp only [ha, hb, if_true, if_false] at h
    have := congrArg String.data h
    simp at this
  · simp only [ha, hb, if_true, if_false] at h
    have := congrArg String.data h
    simp at this
  · simp only [ha, hb, if_false] at h
    have := congrArg String.data h
    simp only [String.data_append] at this
    have h2 : a.data = b.data := by simpa using this
    exact String.ext h2

theorem marked_quoteFree {a : String} (h : '"' ∉ a.data) : '"' ∉ (marked a).data := by
  unfold marked
  by_cases ha : a = ""
  · simp [ha]
  · simp only [ha, if_false, String.data_append]
    intro hmem
    rcases List.mem_append.mp hmem with h1 | h1
    · simp at h1
    · exact h h1

theorem csvRecord_data (name email phone company message date : String) :
    (csvRecord name email phone company message date).data =
      List.intercalate ['"']
        [[], name.data, [','], email.data, [','], (marked phone).data, [','], company.data,
          [','], message.data, [','], (marked date).data, []] := by
  simp [csvRecord, quoted, String.intercalate, String.intercalate.go, String.data_append,
    List.intercalate, List.intersperse]

theorem unmark_marked (a : String) : unmark (marked a) = a := by
  by_cases ha : a = ""
  · subst ha; rfl
  · simp only [marked, ha, if_false]
    rfl

theorem recoverFields_csvRecord (name email phone company message date : String)
    (hn : '"' ∉ name.data) (he : '"' ∉ email.data) (hp : '"' ∉ phone.data)
    (hc : '"' ∉ company.data) (hm : '"' ∉ message.data) (hd : '"' ∉ date.data) :
    recoverFields (csvRecord name email phone company message date) =
      [name, email, phone, company, message, date] := by
  have hsplit : (csvRecord name email phone company message date).data.splitOn '"' =
      [[], name.data, [','], email.data, [','], (marked phone).data, [','], company.data,
        [','], message.data, [','], (marked date).data, []] := by
    rw [csvRecord_data, List.splitOn_intercalate]
    · intro l hl
      simp only [List.mem_cons, List.mem_singleton] at hl
      have hcomma : '"' ∉ [','] := by decide
      rcases hl with h | h | h | h | h | h | h | h | h | h | h | h | h | h
      all_goals first
        | (subst h; simp)
        | (subst h; assumption)
        | (subst h; exact marked_quoteFree hp)
        | (subst h; exact marked_quoteFree hd)
        | (exact absurd h (List.not_mem_nil _))
    · simp
  unfold recoverFields
  rw [hsplit]
  simp only [List.map]
  exact congrArg₂ (fun p d => [name, email, p, company, message, d])
    (unmark_marked phone) (unmark_marked date)

theorem recoverFields_csvLine (rt : JsRuntime) (row : Row) (h : quoteFree rt row) :
    recoverFields (csvLine rt row) = renderedFields rt row := by
  rw [csvLine_eq_csvRecord]
  exact recoverFields_csvRecord _ _ _ _ _ _
    (h _ (by simp [renderedFields])) (h _ (by simp [renderedFields]))
    (h _ (by simp [renderedFields])) (h _ (by simp [renderedFields]))
    (h _ (by simp [renderedFields])) (h _ (by simp [renderedFields]))

/-- C22, as stated, fails: a row with the name `a","b` and the email `c` and
a row with the name `a` and the email `b","c` differ in name and email and
are rendered as the same line; and a row with no email and a row with the
empty email are rendered as the same line. -/
theorem csvLine_collides_on_embedded_quotes :
    renderedFields plainRuntime (nameEmailRow (some "a\",\"b") (some "c")) ≠
      renderedFields plainRuntime (nameEmailRow (some "a") (some "b\",\"c")) ∧
    csvLine plainRuntime (nameEmailRow (some "a\",\"b") (some "c")) =
      csvLine plainRuntime (nameEmailRow (some "a") (some "b\",\"c")) ∧
    (nameEmailRow (some "a") none).email ≠ (nameEmailRow (some "a") (some "")).email ∧
    csvLine plainRuntime (nameEmailRow (some "a") none) =
      csvLine plainRuntime (nameEmailRow (some "a") (some "")) := by
  decide

/-- C22, amended: for two rows none of whose rendered field values contains a
double quote, if the tuples of rendered values (name, email, phone, company,
message, rendered date, a missing value being the empty text) differ then the
rendered lines differ, and the six values are read back from a line by
`recoverFields`. -/
theorem csvLine_injective_without_quotes (rt : JsRuntime) (row1 row2 : Row)
    (h1 : quoteFree rt row1) (h2 : quoteFree rt row2) :
    (renderedFields rt row1 ≠ renderedFields rt row2 → csvLine rt row1 ≠ csvLine rt row2) ∧
    recoverFields (csvLine rt row1) = renderedFields rt row1 ∧
    recoverFields (csvLine rt row2) = renderedFields rt row2 := by
  have e1 := recoverFields_csvLine rt row1 h1
  have e2 := recoverFields_csvLine rt row2 h2
  refine ⟨?_, e1, e2⟩
  intro hne heq
  apply hne
  rw [← e1, ← e2, heq]

theorem csvLine_injective_without_quotes_witness :
    quoteFree plainRuntime (janeRow 1 (some "2024-01-15 12:00:00")) ∧
    quoteFree plainRuntime (nameEmailRow (some "a") (some "c")) ∧
    (renderedFields plainRuntime (janeRow 1 (some "2024-01-15 12:00:00")) ≠
        renderedFields plainRuntime (nameEmailRow (some "a") (some "c")) →
      csvLine plainRuntime (janeRow 1 (some "2024-01-15 12:00:00")) ≠
        csvLine plainRuntime (nameEmailRow (some "a") (some "c"))) ∧
    recoverFields (csvLine plainRuntime (janeRow 1 (some "2024-01-15 12:00:00"))) =
      renderedFields plainRuntime (janeRow 1 (some "2024-01-15 12:00:00")) ∧
    recoverFields (csvLine plainRuntime (nameEmailRow (some "a") (some "c"))) =
      renderedFields plainRuntime (nameEmailRow (some "a") (some "c")) :=
  ⟨by unfold quoteFree; decide, by unfold quoteFree; decide,
   csvLine_injective_without_quotes plainRuntime (janeRow 1 (some "2024-01-15 12:00:00"))
     (nameEmailRow (some "a") (some "c")) (by unfold quoteFree; decide)
     (by unfold quoteFree; decide)⟩

/-! ## The pre-fill round trip -/

/-- C21 at failing inputs. For the message ` 50% off ` the generated URL is
`...?name=Jane+Doe&message=50%25+off`, `URLSearchParams.get` gives back the
trimmed message `50% off`, and the `decodeURIComponent` applied on top of it
throws, so the form is not pre-filled at all. For the message `100%41` the
form is pre-filled with `100A`. A message without `%` comes back trimmed. -/
theorem prefill_breaks_on_percent :
    generateUrl "https://forms.example" (generatorWith "  Jane Doe " " 50% off ") =
      "https://forms.example?name=Jane+Doe&message=50%25+off" ∧
    paramsGet (parseSearch (locationSearch (generatorWith "  Jane Doe " " 50% off ")))
      "message" = some (jsTrim " 50% off ") ∧
    prefillFromSearch (locationSearch (generatorWith "  Jane Doe " " 50% off ")) =
      .error "URIError: URI malformed" ∧
    jsTrim "100%41" = "100%41" ∧
    prefillFromSearch (locationSearch (generatorWith "  Jane Doe " "100%41")) =
      .ok (generatorWith "Jane Doe" "100A") ∧
    prefillFromSearch (locationSearch (generatorWith "  Jane Doe " " half price ")) =
      .ok (generatorWith "Jane Doe" "half price") :=
  ⟨by decide, by decide, rfl, by decide, rfl, rfl⟩

end FormCollector
